import Mathlib

/-!
ASN.1 GeneralizedTime (`crypto/asn1/a_gentm.c`)

A shallow embedding of the functions of `a_gentm.c` and theorems about them.

* Bytes are natural numbers; a buffer is a list of bytes.  `char` comparisons
  of the source only ever separate the ASCII digits, `'.'` and `'Z'` from the
  rest, which gives the same answer for a signed and an unsigned `char`.
* C `int`/`long`/`time_t` values are integers.
* A pointer that may be `NULL` is an `Option`.
* A read outside the buffer is a `Fault`, so the functions that index raw
  bytes return `Except Fault _`.
-/

namespace A_gentm

/-! ## Data model -/

/-- What a C execution can run into outside the value it returns: a read
outside the buffer, or a loop that has not finished within its fuel. -/
inductive Fault where
  | outOfBounds
  | outOfFuel
  deriving DecidableEq, Repr

deriving instance DecidableEq for Except

/-- The fields of `struct tm` that this file reads or writes. -/
structure TM where
  tm_sec : Int
  tm_min : Int
  tm_hour : Int
  tm_mday : Int
  tm_mon : Int
  tm_year : Int
  deriving DecidableEq, Repr

/-- The `ASN1_STRING` record (`ASN1_GENERALIZEDTIME` is a typedef of it):
`data` is the block the pointer addresses (`none` is `NULL`), which may be
longer than the declared `length`. -/
structure ASN1_STRING where
  length : Int
  type : Int
  data : Option (List Nat)
  flags : Int
  deriving DecidableEq, Repr

/-- Modelled from the spec: the tag constant of `openssl/asn1.h` (source not
available) that identifies a value as a GeneralizedTime; 24 is its universal
tag number. -/
def V_ASN1_GENERALIZEDTIME : Int := 24

/-- The bytes of a value: the first `length` bytes of its block. -/
def ASN1_STRING.bytes (s : ASN1_STRING) : List Nat :=
  (s.data.getD []).take s.length.toNat

/-- The bytes of a string literal. -/
def ascii (s : String) : List Nat := s.toList.map Char.toNat

/-- Reading `v[i]`: a fault when `v` is `NULL` or `i` is outside the block. -/
def rd (v : Option (List Nat)) (i : Int) : Except Fault Nat :=
  match v with
  | none => .error .outOfBounds
  | some l =>
    if 0 ≤ i then
      match l.get? i.toNat with
      | some c => .ok c
      | none => .error .outOfBounds
    else .error .outOfBounds

/-! ## Output sink and `printf` conversions -/

/-- An output sink (`BIO`): the bytes it has accepted, the payload of every
write that was requested of it, and whether its writes fail. -/
structure BIO where
  out : List Nat
  requests : List (List Nat)
  failing : Bool
  deriving DecidableEq, Repr

/-- Modelled from the spec: `BIO_write` of the output-sink collaborator
(source not available): it accepts the bytes and reports how many, or reports failure. -/
def BIO_write (bp : BIO) (s : List Nat) : BIO × Int :=
  if bp.failing then
    ({ bp with requests := bp.requests ++ [s] }, -1)
  else
    ({ bp with out := bp.out ++ s, requests := bp.requests ++ [s] }, s.length)

/-- The decimal digits of `n`, most significant first; at least one digit. The
loop is the `do ... while (uvalue)` of a `%d` conversion. -/
def fmtDigits : Nat → Nat → List Nat → List Nat
  | 0, _, acc => acc
  | fuel + 1, n, acc =>
    let acc1 := (48 + n % 10) :: acc
    if n / 10 = 0 then acc1 else fmtDigits fuel (n / 10) acc1

/-- Modelled from the spec: a `%d` conversion of `BIO_printf`/`BIO_snprintf`
(`crypto/bio/b_print.c`, source not available) with minimum field width `min`,
padded on the left with zeros (`%0<min>d`) or with spaces (`%<min>d`); the
sign counts towards the width and nothing is ever cut. -/
def fmtint (value : Int) (min : Nat) (zero : Bool) : List Nat :=
  let digits := fmtDigits (value.natAbs + 1) value.natAbs []
  let sign : List Nat := if value < 0 then [45] else []
  let pad := min - (digits.length + sign.length)
  if zero then sign ++ List.replicate pad 48 ++ digits
  else List.replicate pad 32 ++ sign ++ digits

/-- Modelled from the spec: a `%s` conversion of `BIO_printf` with precision
`max` (negative when the format gives none, `%.*s` passes it as an argument):
the bytes of the string up to its NUL, at most `max` of them; a `NULL` string
is printed as `<NULL>`, cut by the precision like any other. -/
def fmtstr (value : Option (List Nat)) (max : Int) : List Nat :=
  let str := (value.getD (ascii "<NULL>")).takeWhile (fun c => c ≠ 0)
  if max < 0 then str else str.take max.toNat

/-- A C string literal as it lies in memory: its bytes and the closing NUL. -/
def cstr (s : String) : List Nat := ascii s ++ [0]

/-- The table `_asn1_mon[12][4]`: month names, each three bytes and a NUL. -/
def _asn1_mon : List (List Nat) :=
  [cstr "Jan", cstr "Feb", cstr "Mar", cstr "Apr", cstr "May", cstr "Jun",
   cstr "Jul", cstr "Aug", cstr "Sep", cstr "Oct", cstr "Nov", cstr "Dec"]

/-- Indexing the month table: a fault outside its 12 entries. -/
def monthName (i : Int) : Except Fault (List Nat) :=
  if 0 ≤ i then
    match _asn1_mon.get? i.toNat with
    | some s => .ok s
    | none => .error .outOfBounds
  else .error .outOfBounds

/-! ## `ASN1_GENERALIZEDTIME_print` -/

/-- The `err:` label of the printer: `BIO_write(bp, "Bad time value", 14)`,
then `return 0` whatever the write reported. -/
def printErr (bp : BIO) : BIO × Int :=
  ((BIO_write bp ((cstr "Bad time value").take 14)).1, 0)

/-- The loop `for (i = 0; i < 12; i++) if (v[i] > '9' || v[i] < '0') goto err`,
started at index `i` with `n` iterations left: `false` is the jump to `err`. -/
def digitLoop (v : Option (List Nat)) : Nat → Int → Except Fault Bool
  | 0, _ => .ok true
  | n + 1, i => do
    let c ← rd v i
    if c > 57 ∨ c < 48 then .ok false else digitLoop v n (i + 1)

/-- The loop `while (14 + f_len < l && f[f_len] >= '0' && f[f_len] <= '9')
++f_len;` with `f = &v[14]`; the result is the final `f_len`. -/
def fracLoop (v : Option (List Nat)) (l : Int) : Nat → Int → Except Fault Int
  | 0, _ => .error .outOfFuel
  | fuel + 1, f_len =>
    if 14 + f_len < l then do
      let c ← rd v (14 + f_len)
      if c ≥ 48 ∧ c ≤ 57 then fracLoop v l fuel (f_len + 1) else .ok f_len
    else .ok f_len

/-- The seconds block of the printer (`if (tm->length >= 14 && ...)`): the
values of `s`, `f` and `f_len` after it; they keep their initial values 0,
`NULL`, 0 unless the block assigns them. -/
def printSeconds (tm : ASN1_STRING) : Except Fault (Int × Option (List Nat) × Int) :=
  let v := tm.data
  if tm.length ≥ 14 then do
    let v12 ← rd v 12
    if v12 ≥ 48 ∧ v12 ≤ 57 then do
      let v13 ← rd v 13
      if v13 ≥ 48 ∧ v13 ≤ 57 then do
        let s : Int := ((v12 : Int) - 48) * 10 + ((v13 : Int) - 48)
        if tm.length ≥ 15 then do
          let v14 ← rd v 14
          if v14 = 46 then do
            let l := tm.length
            let f := (v.getD []).drop 14
            let f_len ← fracLoop v l l.toNat 1
            pure (s, some f, f_len)
          else pure (s, none, 0)
        else pure (s, none, 0)
      else pure (0, none, 0)
    else pure (0, none, 0)
  else pure (0, none, 0)

/-- The function `ASN1_GENERALIZEDTIME_print`: the sink after the call and the
value returned. -/
def ASN1_GENERALIZEDTIME_print (bp : BIO) (tm : ASN1_STRING) :
    Except Fault ( BIO × Int) :=
  let i := tm.length
  let v := tm.data
  if i < 12 then pure (printErr bp)
  else do
    let last ← rd v (i - 1)
    let gmt : Bool := last == 90
    let digits ← digitLoop v 12 0
    if !digits then pure (printErr bp)
    else do
      let v0 ← rd v 0
      let v1 ← rd v 1
      let v2 ← rd v 2
      let v3 ← rd v 3
      let y : Int := ((v0 : Int) - 48) * 1000 + ((v1 : Int) - 48) * 100
        + ((v2 : Int) - 48) * 10 + ((v3 : Int) - 48)
      let v4 ← rd v 4
      let v5 ← rd v 5
      let M : Int := ((v4 : Int) - 48) * 10 + ((v5 : Int) - 48)
      if M > 12 ∨ M < 1 then pure (printErr bp)
      else do
        let v6 ← rd v 6
        let v7 ← rd v 7
        let d : Int := ((v6 : Int) - 48) * 10 + ((v7 : Int) - 48)
        let v8 ← rd v 8
        let v9 ← rd v 9
        let h : Int := ((v8 : Int) - 48) * 10 + ((v9 : Int) - 48)
        let v10 ← rd v 10
        let v11 ← rd v 11
        let m : Int := ((v10 : Int) - 48) * 10 + ((v11 : Int) - 48)
        let (s, f, f_len) ← printSeconds tm
        let mon ← monthName (M - 1)
        -- BIO_printf(bp, "%s %2d %02d:%02d:%02d%.*s %d%s", ...) > 0
        let text := fmtstr (some mon) (-1) ++ [32] ++ fmtint d 2 false ++ [32]
          ++ fmtint h 2 true ++ [58] ++ fmtint m 2 true ++ [58] ++ fmtint s 2 true
          ++ fmtstr f f_len ++ [32] ++ fmtint y 0 false
          ++ fmtstr (some (if gmt then cstr " GMT" else cstr "")) (-1)
        let w := BIO_write bp text
        pure (w.1, if w.2 > 0 then 1 else 0)

/-! ## Validation: `asn1_generalizedtime_to_tm`, `ASN1_GENERALIZEDTIME_check` -/

/-- The type of the shared grammar core `asn1_time_to_tm(tm, d)`, whose source
is not available: from the output record before the call (`none` when the caller
passes `NULL`) and the value, the `int` returned and the record afterwards. -/
abbrev TimeCore := Option TM → ASN1_STRING → Int × Option TM

/-- The function `asn1_generalizedtime_to_tm`, over the grammar core it wraps. -/
def asn1_generalizedtime_to_tm (asn1_time_to_tm : TimeCore) (tm : Option TM)
    (d : ASN1_STRING) : Int × Option TM :=
  if d.type ≠ V_ASN1_GENERALIZEDTIME then (0, tm)
  else asn1_time_to_tm tm d

/-- The function `ASN1_GENERALIZEDTIME_check`. -/
def ASN1_GENERALIZEDTIME_check (asn1_time_to_tm : TimeCore) (d : ASN1_STRING) : Int :=
  (asn1_generalizedtime_to_tm asn1_time_to_tm none d).1

/-! ## `ASN1_GENERALIZEDTIME_set_string` -/

/-- The C function `strlen`, for a string given by its bytes with the closing
NUL left implicit: the number of bytes before the first NUL. -/
def strlen (str : List Nat) : Int := ((str.takeWhile (fun c => c ≠ 0)).length : Int)

/-- The type of the container collaborator `ASN1_STRING_set(s, data, len)`,
whose source is not available: the `int` returned and the value afterwards. -/
abbrev StringSet := ASN1_STRING → List Nat → Int → Int × ASN1_STRING

/-- The transient view `t` that `ASN1_GENERALIZEDTIME_set_string` builds over
the caller's string: its `data` aliases the string, closing NUL included. -/
def stringView (str : List Nat) : ASN1_STRING :=
  { type := V_ASN1_GENERALIZEDTIME, length := strlen str, data := some (str ++ [0]),
    flags := 0 }

/-- The function `ASN1_GENERALIZEDTIME_set_string`: the `int` returned and the
target `s` afterwards (`none` when the caller passes `NULL`). -/
def ASN1_GENERALIZEDTIME_set_string (asn1_time_to_tm : TimeCore)
    (ASN1_STRING_set : StringSet) (s : Option ASN1_STRING) (str : List Nat) :
    Int × Option ASN1_STRING :=
  let t := stringView str
  if ASN1_GENERALIZEDTIME_check asn1_time_to_tm t ≠ 0 then
    match s with
    | some s0 =>
      let r := ASN1_STRING_set s0 (str ++ [0]) t.length
      if r.1 = 0 then (0, some r.2)
      else (1, some { r.2 with type := V_ASN1_GENERALIZEDTIME })
    | none => (1, none)
  else (0, s)

/-- Modelled from the spec: `ASN1_STRING_set` of the tagged-string container
(`crypto/asn1/asn1_lib.c`, source not available): "copy the string bytes into the
target value's buffer, set length"; `ok` says whether its allocation succeeds,
and a failed call leaves the value as it was. -/
def ASN1_STRING_set (ok : Bool) : StringSet := fun s data len =>
  if ok then (1, { s with length := len, data := some (data.take len.toNat ++ [0]) })
  else (0, s)

/-! ## `ASN1_GENERALIZEDTIME_adj`, `ASN1_GENERALIZEDTIME_set` -/

/-- The collaborators of `ASN1_GENERALIZEDTIME_adj` whose source is not available:
`OPENSSL_gmtime`, `OPENSSL_gmtime_adj` (both `none` on failure), what
`ASN1_GENERALIZEDTIME_new()` returns and the block `OPENSSL_malloc` returns
for a size (`none` is `NULL`). -/
structure Collab where
  gmtime : Int → Option TM
  gmtime_adj : TM → Int → Int → Option TM
  new_value : Option ASN1_STRING
  malloc : Nat → Option (List Nat)

/-- The conversion `(size_t)x` of an `int`, for a 64-bit `size_t`. -/
def size_t_of (x : Int) : Int := x % 2 ^ 64

/-- Modelled from the spec: `BIO_snprintf(buf, n, ...)` of
`crypto/bio/b_print.c` (source not available), given the text its format produces:
the text and a NUL are stored at the start of the block and the length of the
text is returned; a text that does not fit in `n` bytes with its NUL is cut
to `n - 1` bytes and reported as -1. -/
def BIO_snprintf (buf : List Nat) (n : Nat) (text : List Nat) : List Nat × Int :=
  if text.length < n then (text ++ [0] ++ buf.drop (text.length + 1), text.length)
  else (text.take (n - 1) ++ [0] ++ buf.drop n, -1)

/-- The text of the format `"%04d%02d%02d%02d%02d%02dZ"` applied to
`tm_year + 1900, tm_mon + 1, tm_mday, tm_hour, tm_min, tm_sec`. -/
def gentmText (ts : TM) : List Nat :=
  fmtint (ts.tm_year + 1900) 4 true ++ fmtint (ts.tm_mon + 1) 2 true
    ++ fmtint ts.tm_mday 2 true ++ fmtint ts.tm_hour 2 true
    ++ fmtint ts.tm_min 2 true ++ fmtint ts.tm_sec 2 true ++ [90]

/-- The function `ASN1_GENERALIZEDTIME_adj`: the value returned (`none` is
`NULL`) and the caller's target `s` afterwards. -/
def ASN1_GENERALIZEDTIME_adj (c : Collab) (s : Option ASN1_STRING)
    (t offset_day offset_sec : Int) : Option ASN1_STRING × Option ASN1_STRING :=
  let len : Nat := 20
  let tmps := match s with
    | none => c.new_value
    | some s0 => some s0
  match tmps with
  | none => (none, s)
  | some tmps =>
    match c.gmtime t with
    | none => (none, s)
    | some ts0 =>
      let adjusted :=
        if offset_day ≠ 0 ∨ offset_sec ≠ 0 then c.gmtime_adj ts0 offset_day offset_sec
        else some ts0
      match adjusted with
      | none => (none, s)
      | some ts =>
        let block :=
          if tmps.data = none ∨ size_t_of tmps.length < len then c.malloc len
          else tmps.data
        match block with
        | none => (none, s)
        | some p =>
          let r := BIO_snprintf p len (gentmText ts)
          let tmps1 : ASN1_STRING :=
            { tmps with data := some r.1, length := r.2, type := V_ASN1_GENERALIZEDTIME }
          (some tmps1, s.map (fun _ => tmps1))

/-- The function `ASN1_GENERALIZEDTIME_set`. -/
def ASN1_GENERALIZEDTIME_set (c : Collab) (s : Option ASN1_STRING) (t : Int) :
    Option ASN1_STRING × Option ASN1_STRING :=
  ASN1_GENERALIZEDTIME_adj c s t 0 0

/-! ## Collaborators modelled from the spec -/

/-- Days since 1970-01-01 of a date of the proleptic Gregorian calendar. -/
def daysFromCivil (y m d : Int) : Int :=
  let y1 := if m ≤ 2 then y - 1 else y
  let era := y1 / 400
  let yoe := y1 - era * 400
  let mp := (m + 9) % 12
  let doy := (153 * mp + 2) / 5 + d - 1
  let doe := yoe * 365 + yoe / 4 - yoe / 100 + doy
  era * 146097 + doe - 719468

/-- The date (year, month 1..12, day 1..31) of a day number since
1970-01-01, in the proleptic Gregorian calendar. -/
def civilFromDays (z0 : Int) : Int × Int × Int :=
  let z := z0 + 719468
  let era := z / 146097
  let doe := z - era * 146097
  let yoe := (doe - doe / 1460 + doe / 36524 - doe / 146096) / 365
  let doy := doe - (365 * yoe + yoe / 4 - yoe / 100)
  let mp := (5 * doy + 2) / 153
  let d := doy - (153 * mp + 2) / 5 + 1
  let m := if mp < 10 then mp + 3 else mp - 9
  let y := yoe + era * 400 + (if m ≤ 2 then 1 else 0)
  (y, m, d)

/-- The broken-down fields of second `secs` (0..86399) of day number `days`;
`none` when `tm_year` does not fit an `int`. -/
def tmOfDaySec (days secs : Int) : Option TM :=
  let ymd := civilFromDays days
  let tm_year := ymd.1 - 1900
  if tm_year < -2147483648 ∨ tm_year > 2147483647 then none
  else some { tm_sec := secs % 60, tm_min := secs / 60 % 60, tm_hour := secs / 3600,
              tm_mday := ymd.2.2, tm_mon := ymd.2.1 - 1, tm_year := tm_year }

/-- Modelled from the spec: `OPENSSL_gmtime` (`crypto/o_time.c`, source not
available), "epoch-seconds → broken-down UTC fields", failing for an "epoch value
out of representable range". -/
def OPENSSL_gmtime (t : Int) : Option TM :=
  tmOfDaySec (t / 86400) (t % 86400)

/-- Modelled from the spec: `OPENSSL_gmtime_adj` (`crypto/o_time.c`, source
not available), "apply day/second offset to broken-down fields", in calendar space:
the offsets are added to the day number and the second of the day of the
fields, and the sum is broken down again. -/
def OPENSSL_gmtime_adj (ts : TM) (offset_day offset_sec : Int) : Option TM :=
  let day := daysFromCivil (ts.tm_year + 1900) (ts.tm_mon + 1) ts.tm_mday + offset_day
  let sec := ts.tm_hour * 3600 + ts.tm_min * 60 + ts.tm_sec + offset_sec
  tmOfDaySec (day + sec / 86400) (sec % 86400)

/-- The calendar collaborators of the spec with an allocator that hands out
zeroed blocks and a constructor that hands out an empty value. -/
def stdCollab : Collab :=
  { gmtime := OPENSSL_gmtime
    gmtime_adj := OPENSSL_gmtime_adj
    new_value := some { length := 0, type := V_ASN1_GENERALIZEDTIME, data := none, flags := 0 }
    malloc := fun n => some (List.replicate n 0) }

/-- Whether a byte is an ASCII digit. -/
def isDigit (c : Nat) : Bool := 48 ≤ c && c ≤ 57

/-- The number written by a list of ASCII digits. -/
def digitsVal (l : List Nat) : Int :=
  l.foldl (fun (acc : Int) (c : Nat) => acc * 10 + ((c : Int) - 48)) 0

/-- Modelled from the spec: the grammar of §4.1, `YYYYMMDDHHMMSS[.fraction]Z`,
"where each of the 14 leading characters is an ASCII digit, MM ∈ [01,12]", a
fraction being a point and one or more digits; the result is the decoded
year/month/day/hour/minute/second, in the conventions of `struct tm`. -/
def parseGentm (b : List Nat) : Option TM :=
  let head := b.take 14
  let rest := b.drop 14
  let month := digitsVal ((b.drop 4).take 2)
  let frac := (rest.drop 1).takeWhile isDigit
  let tailOk : Bool :=
    rest == [90] || (rest.head? == some 46 && frac ≠ [] && rest.drop (1 + frac.length) == [90])
  if head.length = 14 ∧ head.all isDigit ∧ 1 ≤ month ∧ month ≤ 12 ∧ tailOk then
    some { tm_year := digitsVal (b.take 4) - 1900
           tm_mon := month - 1
           tm_mday := digitsVal ((b.drop 6).take 2)
           tm_hour := digitsVal ((b.drop 8).take 2)
           tm_min := digitsVal ((b.drop 10).take 2)
           tm_sec := digitsVal ((b.drop 12).take 2) }
  else none

/-- Modelled from the spec: the shared grammar core `asn1_time_to_tm`
(`crypto/asn1/a_time.c`, source not available) on a GeneralizedTime value: it
"returns a boolean success/failure; no partial results on failure", and on
success fills the output record when there is one. -/
def asn1_time_to_tm : TimeCore := fun tm d =>
  match parseGentm d.bytes with
  | none => (0, tm)
  | some f => (1, tm.map (fun _ => f))

/-! ## What the printer is expected to write -/

/-- The number written by two ASCII digits. -/
def num2 (a b : Nat) : Nat := (a - 48) * 10 + (b - 48)

/-- The number written by four ASCII digits. -/
def num4 (a b c d : Nat) : Nat := (a - 48) * 1000 + (b - 48) * 100 + (c - 48) * 10 + (d - 48)

/-- A number below 100 as two digits, zero-padded. -/
def twoDigits (n : Nat) : List Nat := [48 + n / 10, 48 + n % 10]

/-- A number below 100 right-aligned in width 2, padded with a space. -/
def dayField (n : Nat) : List Nat := if n < 10 then [32, 48 + n] else twoDigits n

/-- A number as a plain decimal. -/
def decimal (n : Nat) : List Nat := ascii (toString n)

/-- The `M`-th entry of Jan..Dec, for `M` in 1..12. -/
def monthStr (M : Nat) : List Nat :=
  ascii (["Jan", "Feb", "Mar", "Apr", "May", "Jun",
          "Jul", "Aug", "Sep", "Oct", "Nov", "Dec"].getD (M - 1) "")

/-- The seconds value and the fraction text that the printer shows for the
bytes `b` of a value: seconds are read when bytes 12 and 13 exist and are
digits, and a fraction only then. -/
def secFrac (b : List Nat) : Nat × List Nat :=
  if 14 ≤ b.length ∧ isDigit (b.getD 12 0) = true ∧ isDigit (b.getD 13 0) = true then
    (num2 (b.getD 12 0) (b.getD 13 0),
      if 15 ≤ b.length ∧ b.getD 14 0 = 46 then 46 :: (b.drop 15).takeWhile isDigit else [])
  else (0, [])

/-- The sink after it has accepted a write of `text`. -/
def BIO.accepted (bp : BIO) (text : List Nat) : BIO :=
  { bp with out := bp.out ++ text, requests := bp.requests ++ [text] }

/-- The text the printer is expected to request of the sink for the bytes `b`
of a value that passes its checks. -/
def renderText (b : List Nat) : List Nat :=
  monthStr (num2 (b.getD 4 0) (b.getD 5 0)) ++ [32]
    ++ dayField (num2 (b.getD 6 0) (b.getD 7 0)) ++ [32]
    ++ twoDigits (num2 (b.getD 8 0) (b.getD 9 0)) ++ [58]
    ++ twoDigits (num2 (b.getD 10 0) (b.getD 11 0)) ++ [58]
    ++ twoDigits (secFrac b).1 ++ (secFrac b).2 ++ [32]
    ++ decimal (num4 (b.getD 0 0) (b.getD 1 0) (b.getD 2 0) (b.getD 3 0))
    ++ (if b.getLast? = some 90 then ascii " GMT" else [])

/-- The inputs the printer is expected to reject: fewer than 12 bytes, a
byte among positions 0-11 that is not an ASCII digit, or a month (bytes 4-5)
that is 0 or above 12. -/
def malformed (tm : ASN1_STRING) : Prop :=
  tm.length < 12 ∨ (∃ i, i < 12 ∧ isDigit (tm.bytes.getD i 0) = false)
    ∨ num2 (tm.bytes.getD 4 0) (tm.bytes.getD 5 0) = 0
    ∨ 12 < num2 (tm.bytes.getD 4 0) (tm.bytes.getD 5 0)

/-- A value whose declared length lies within its block (`NULL` being an
empty block). -/
def ASN1_STRING.inBlock (s : ASN1_STRING) : Prop :=
  s.length ≤ ((s.data.getD []).length : Int)

instance (s : ASN1_STRING) : Decidable s.inBlock := by
  unfold ASN1_STRING.inBlock
  infer_instance

/-! ## What the constructor is expected to produce -/

/-- A number below 10000 as four digits, zero-padded. -/
def fourDigits (n : Nat) : List Nat :=
  [48 + n / 1000, 48 + n / 100 % 10, 48 + n / 10 % 10, 48 + n % 10]

/-- The fields that `ASN1_GENERALIZEDTIME_adj` is expected to format:
`gmtime(t)` when both offsets are 0, and otherwise the adjuster applied once,
with the two offsets, to `gmtime(t)`. -/
def adjustedFields (c : Collab) (t offset_day offset_sec : Int) : Option TM :=
  if offset_day = 0 ∧ offset_sec = 0 then c.gmtime t
  else (c.gmtime t).bind (fun ts0 => c.gmtime_adj ts0 offset_day offset_sec)

/-- The 15 bytes `YYYYMMDDHHMMSSZ` of broken-down fields: the year
`tm_year + 1900` on four digits, the month `tm_mon + 1`, day, hour, minute
and second on two digits each, then `Z`. -/
def gentmBytes (ts : TM) : List Nat :=
  fourDigits (ts.tm_year + 1900).toNat ++ twoDigits (ts.tm_mon + 1).toNat
    ++ twoDigits ts.tm_mday.toNat ++ twoDigits ts.tm_hour.toNat
    ++ twoDigits ts.tm_min.toNat ++ twoDigits ts.tm_sec.toNat ++ [90]

/-- Broken-down fields that fit the fixed format: a year
`tm_year + 1900` in 0..9999, `tm_mon` in 0..11 and day, hour, minute and
second each in 0..99. -/
def fitsFormat (ts : TM) : Prop :=
  0 ≤ ts.tm_year + 1900 ∧ ts.tm_year + 1900 ≤ 9999 ∧ 0 ≤ ts.tm_mon ∧ ts.tm_mon ≤ 11
    ∧ 0 ≤ ts.tm_mday ∧ ts.tm_mday ≤ 99 ∧ 0 ≤ ts.tm_hour ∧ ts.tm_hour ≤ 99
    ∧ 0 ≤ ts.tm_min ∧ ts.tm_min ≤ 99 ∧ 0 ≤ ts.tm_sec ∧ ts.tm_sec ≤ 99

instance (ts : TM) : Decidable (fitsFormat ts) := by
  unfold fitsFormat
  infer_instance

/-- The value `ASN1_GENERALIZEDTIME_adj` writes to: the caller's target, or
a new value when the caller passes `NULL`. -/
def adjTarget (c : Collab) (s : Option ASN1_STRING) : Option ASN1_STRING :=
  match s with
  | none => c.new_value
  | some s0 => some s0

/-- The block `ASN1_GENERALIZEDTIME_adj` writes to: the block of the value
when it has one and its length, as a `size_t`, is at least 20, and a newly
allocated block of 20 bytes otherwise. -/
def adjBlock (c : Collab) (v : ASN1_STRING) : Option (List Nat) :=
  if v.data = none ∨ size_t_of v.length < 20 then c.malloc 20 else v.data

/-- The value `v` after `text` has been stored in the block `p`: the block
and the length are what `BIO_snprintf` leaves and reports, the type is
GeneralizedTime. -/
def stored (v : ASN1_STRING) (p : List Nat) (text : List Nat) : ASN1_STRING :=
  { v with data := some (BIO_snprintf p 20 text).1, length := (BIO_snprintf p 20 text).2,
           type := V_ASN1_GENERALIZEDTIME }

/-! ## The parts of the printed text -/

/-- The printed text up to the colon before the seconds: month name, day in
width 2, hour and minute on two digits, all read from positions 4-11. -/
def headText (b : List Nat) : List Nat :=
  monthStr (num2 (b.getD 4 0) (b.getD 5 0)) ++ ascii " "
    ++ dayField (num2 (b.getD 6 0) (b.getD 7 0)) ++ ascii " "
    ++ twoDigits (num2 (b.getD 8 0) (b.getD 9 0)) ++ ascii ":"
    ++ twoDigits (num2 (b.getD 10 0) (b.getD 11 0)) ++ ascii ":"

/-- The fraction text: byte 14 when it is a point, and the digits that follow
it inside the value. -/
def fracText (b : List Nat) : List Nat :=
  if 15 ≤ b.length ∧ b.getD 14 0 = 46 then 46 :: (b.drop 15).takeWhile isDigit else []

/-- The year, read from positions 0-3, as a plain decimal. -/
def yearText (b : List Nat) : List Nat :=
  decimal (num4 (b.getD 0 0) (b.getD 1 0) (b.getD 2 0) (b.getD 3 0))

/-- The GMT marker: ` GMT` when the last byte of the value is `Z`. -/
def gmtText (b : List Nat) : List Nat :=
  if b.getLast? = some 90 then ascii " GMT" else []

/-- The printed text without the GMT marker; its last field is the year. -/
def bodyText (b : List Nat) : List Nat :=
  headText b ++ twoDigits (secFrac b).1 ++ (secFrac b).2 ++ ascii " " ++ yearText b

instance (tm : ASN1_STRING) : Decidable (malformed tm) := by
  unfold malformed
  infer_instance

/-! ## Strings the grammar is expected to reject -/

/-- The strings that the validator is expected to reject, by their bytes: the
empty string, fewer than 12 bytes, a byte among the first 12 that is not an
ASCII digit, a month field `00` or `13`, or no final `Z`. -/
def rejected (b : List Nat) : Prop :=
  b = [] ∨ b.length < 12 ∨ (∃ i, i < 12 ∧ isDigit (b.getD i 0) = false)
    ∨ (b.getD 4 0 = 48 ∧ b.getD 5 0 = 48) ∨ (b.getD 4 0 = 49 ∧ b.getD 5 0 = 51)
    ∨ b.getLast? ≠ some 90

instance (b : List Nat) : Decidable (rejected b) := by
  unfold rejected
  infer_instance

/-! ## Fields that give the fixed length -/

/-- Broken-down fields whose text has the fixed width: a year
`tm_year + 1900` in -999..9999 (four characters under `%04d`, the sign
counting) and month `tm_mon + 1`, day, hour, minute and second each in -9..99
(two characters under `%02d`). -/
def fitsWidth (ts : TM) : Prop :=
  -999 ≤ ts.tm_year + 1900 ∧ ts.tm_year + 1900 ≤ 9999
    ∧ -9 ≤ ts.tm_mon + 1 ∧ ts.tm_mon + 1 ≤ 99 ∧ -9 ≤ ts.tm_mday ∧ ts.tm_mday ≤ 99
    ∧ -9 ≤ ts.tm_hour ∧ ts.tm_hour ≤ 99 ∧ -9 ≤ ts.tm_min ∧ ts.tm_min ≤ 99
    ∧ -9 ≤ ts.tm_sec ∧ ts.tm_sec ≤ 99

instance (ts : TM) : Decidable (fitsWidth ts) := by
  unfold fitsWidth
  infer_instance

/-! ## Theorems -/

theorem digitChar_toNat (k : Nat) (h : k < 10) : (Nat.digitChar k).toNat = 48 + k := by
  interval_cases k <;> rfl

theorem fmtDigits_toDigitsCore (fuel n : Nat) (acc : List Char) :
    fmtDigits fuel n (acc.map Char.toNat) = (Nat.toDigitsCore 10 fuel n acc).map Char.toNat := by
  induction fuel generalizing n acc with
  | zero => simp [fmtDigits, Nat.toDigitsCore]
  | succ f ih =>
    simp only [fmtDigits, Nat.toDigitsCore]
    have hd : (Nat.digitChar (n % 10)).toNat = 48 + n % 10 :=
      digitChar_toNat _ (Nat.mod_lt _ (by decide))
    by_cases h0 : n / 10 = 0
    · simp [h0, hd]
    · simp only [h0, if_false]
      rw [← ih]
      simp [hd]

theorem fmtint_decimal (n : Nat) : fmtint (n : Int) 0 false = decimal n := by
  have h := fmtDigits_toDigitsCore (n + 1) n []
  simp only [List.map_nil] at h
  have hn : ¬ ((n : Int) < 0) := by omega
  simp only [fmtint, decimal, ascii, Int.natAbs_ofNat, h, hn, if_false, List.length_nil,
    Nat.add_zero, Nat.zero_sub, List.replicate_zero, List.nil_append, Bool.false_eq_true]
  rfl

theorem fmtint_twoDigits (n : Nat) (h : n < 100) : fmtint (n : Int) 2 true = twoDigits n := by
  interval_cases n <;> decide

theorem fmtint_dayField (n : Nat) (h : n < 100) : fmtint (n : Int) 2 false = dayField n := by
  interval_cases n <;> decide

theorem rd_some (l0 : List Nat) (i : Nat) (h : i < l0.length) :
    rd (some l0) (i : Int) = .ok (l0.getD i 0) := by
  simp [rd, List.getD, List.get?_eq_getElem?, List.getElem?_eq_getElem h]

theorem digitLoop_spec (l0 : List Nat) : ∀ (n i : Nat), i + n ≤ l0.length →
    digitLoop (some l0) n (i : Int) = .ok (((l0.drop i).take n).all isDigit) := by
  intro n
  induction n with
  | zero => intro i _; simp [digitLoop]
  | succ n ih =>
    intro i h
    have hi : i < l0.length := by omega
    have hd : l0.drop i = l0.getD i 0 :: l0.drop (i + 1) := by
      rw [List.drop_eq_getElem_cons hi]
      simp [List.getD, List.getElem?_eq_getElem hi]
    have hrec := ih (i + 1) (by omega)
    simp only [Nat.cast_add, Nat.cast_one] at hrec
    simp only [digitLoop, rd_some l0 i hi, hd, List.take_succ_cons, List.all_cons, hrec,
      bind, Except.bind]
    generalize l0.getD i 0 = a
    by_cases hc : a > 57 ∨ a < 48
    · have : isDigit a = false := by
        simp only [isDigit, Bool.and_eq_false_imp, decide_eq_true_eq, decide_eq_false_iff_not]
        omega
      simp [hc, this]
    · have : isDigit a = true := by
        simp only [isDigit, Bool.and_eq_true, decide_eq_true_eq]
        omega
      simp [hc, this]

theorem all_take_iff (p : Nat → Bool) (l0 : List Nat) : ∀ n, n ≤ l0.length →
    ((l0.take n).all p = true ↔ ∀ i, i < n → p (l0.getD i 0) = true) := by
  induction l0 with
  | nil => intro n h; simp at h; subst h; simp
  | cons a l ih =>
    intro n h
    cases n with
    | zero => simp
    | succ m =>
      have hm : m ≤ l.length := by simpa using h
      simp only [List.take_succ_cons, List.all_cons, Bool.and_eq_true, ih m hm]
      constructor
      · rintro ⟨ha, hr⟩ i hi
        cases i with
        | zero => simpa using ha
        | succ j => simpa using hr j (by omega)
      · intro hall
        exact ⟨by simpa using hall 0 (by omega), fun i hi => by simpa using hall (i + 1) (by omega)⟩

theorem isDigit_iff (a : Nat) : isDigit a = true ↔ 48 ≤ a ∧ a ≤ 57 := by
  simp [isDigit]

theorem num2_cast (a b : Nat) (ha : 48 ≤ a) (hb : 48 ≤ b) :
    ((a : Int) - 48) * 10 + ((b : Int) - 48) = ((num2 a b : Nat) : Int) := by
  unfold num2
  omega

theorem num4_cast (a b c d : Nat) (ha : 48 ≤ a) (hb : 48 ≤ b) (hc : 48 ≤ c) (hd : 48 ≤ d) :
    ((a : Int) - 48) * 1000 + ((b : Int) - 48) * 100 + ((c : Int) - 48) * 10 + ((d : Int) - 48)
      = ((num4 a b c d : Nat) : Int) := by
  unfold num4
  omega

theorem fracLoop_spec (l0 : List Nat) (L : Nat) (hL : L ≤ l0.length) :
    ∀ (fuel k : Nat), 14 + k ≤ L → L < 14 + k + fuel →
      fracLoop (some l0) (L : Int) fuel (k : Int)
        = .ok (((k + (((l0.take L).drop (14 + k)).takeWhile isDigit).length : Nat)) : Int) := by
  intro fuel
  induction fuel with
  | zero => intro k h1 h2; omega
  | succ fuel ih =>
    intro k h1 h2
    by_cases hlt : 14 + k < L
    · have hi : 14 + k < l0.length := by omega
      have hcond : (14 : Int) + (k : Int) < (L : Int) := by omega
      have hidx : (14 : Int) + (k : Int) = ((14 + k : Nat) : Int) := by push_cast; rfl
      have hd : (l0.take L).drop (14 + k) = l0.getD (14 + k) 0 :: (l0.take L).drop (14 + (k + 1)) := by
        have hi2 : 14 + k < (l0.take L).length := by simp; omega
        rw [List.drop_eq_getElem_cons hi2]
        simp [List.getD, List.getElem?_eq_getElem hi, List.getElem_take, ← Nat.add_assoc]
      have hrec := ih (k + 1) (by omega) (by omega)
      simp only [Nat.cast_add, Nat.cast_one] at hrec
      simp only [fracLoop, hcond, if_true, hidx, rd_some l0 (14 + k) hi, bind, Except.bind, hd,
        hrec]
      generalize l0.getD (14 + k) 0 = a
      by_cases hc : a ≥ 48 ∧ a ≤ 57
      · have hdg : isDigit a = true := (isDigit_iff a).2 hc
        simp only [hc, and_self, if_true, List.takeWhile_cons, hdg, List.length_cons]
        have hlen : k + ((List.takeWhile isDigit (List.drop (14 + (k + 1)) (List.take L l0))).length + 1)
            = k + 1 + (List.takeWhile isDigit (List.drop (14 + (k + 1)) (List.take L l0))).length := by
          omega
        rw [hlen]
        push_cast
        rw [if_pos hcond]
      · have hdg : isDigit a = false := by
          rw [← Bool.not_eq_true, isDigit_iff]; exact hc
        simp [hc, hdg]
    · have hcond : ¬ ((14 : Int) + (k : Int) < (L : Int)) := by omega
      have hnil : (l0.take L).drop (14 + k) = [] := by
        apply List.drop_eq_nil_of_le
        simp; omega
      simp [fracLoop, hcond, hnil]

theorem takeWhile_take_run (X : List Nat) : ∀ n,
    (X.takeWhile (fun c => decide (c ≠ 0))).take ((X.take n).takeWhile isDigit).length
      = (X.take n).takeWhile isDigit := by
  induction X with
  | nil => intro n; simp
  | cons a X ih =>
    intro n
    cases n with
    | zero => simp
    | succ m =>
      by_cases hd : isDigit a = true
      · have ha : a ≠ 0 := by
          have := (isDigit_iff a).1 hd
          omega
        simpa [List.take_succ_cons, List.takeWhile_cons, hd, ha] using ih m
      · simp [List.take_succ_cons, List.takeWhile_cons, hd]

theorem getD_take (l0 : List Nat) (L i : Nat) (h : i < L) :
    (l0.take L).getD i 0 = l0.getD i 0 := by
  simp [List.getD, List.getElem?_take, h]

theorem fmtstr_frac (l0 : List Nat) (L : Nat) (h15 : 15 ≤ L) (hL : L ≤ l0.length)
    (h46 : l0.getD 14 0 = 46) :
    fmtstr (some (l0.drop 14))
        (((1 + (((l0.take L).drop (14 + 1)).takeWhile isDigit).length : Nat)) : Int)
      = 46 :: ((l0.take L).drop 15).takeWhile isDigit := by
  have hi : 14 < l0.length := by omega
  have hd : l0.drop 14 = 46 :: l0.drop 15 := by
    rw [List.drop_eq_getElem_cons hi]
    have : l0[14] = 46 := by
      simpa [List.getD, List.getElem?_eq_getElem hi] using h46
    rw [this]
  have hneg : ¬ (((1 + (((l0.take L).drop (14 + 1)).takeWhile isDigit).length : Nat) : Int) < 0) := by
    omega
  have hrun := takeWhile_take_run (l0.drop 15) (L - 15)
  rw [← List.drop_take] at hrun
  simp only [fmtstr, Option.getD_some, hneg, if_false, Int.toNat_ofNat, hd]
  rw [Nat.add_comm 1, List.takeWhile_cons]
  simp only [ne_eq, OfNat.ofNat_ne_zero, not_false_eq_true, decide_True, if_true,
    List.take_succ_cons]
  rw [hrun]

theorem fmtstr_zero (f : Option (List Nat)) : fmtstr f 0 = [] := by
  simp [fmtstr]

theorem printSeconds_spec (tm : ASN1_STRING) (l0 : List Nat) (L : Nat)
    (hdata : tm.data = some l0) (hlen : tm.length = (L : Int)) (hL : L ≤ l0.length) :
    ∃ f f_len, printSeconds tm = .ok (((secFrac (l0.take L)).1 : Int), f, f_len)
      ∧ fmtstr f f_len = (secFrac (l0.take L)).2 := by
  have hbl : (l0.take L).length = L := by simp [hL]
  unfold printSeconds secFrac
  rw [hdata, hlen, hbl]
  by_cases h14 : 14 ≤ L
  · have c14 : (L : Int) ≥ 14 := by omega
    have r12 : rd (some l0) 12 = .ok (l0.getD 12 0) := by
      simpa using rd_some l0 12 (by omega)
    have r13 : rd (some l0) 13 = .ok (l0.getD 13 0) := by
      simpa using rd_some l0 13 (by omega)
    rw [getD_take l0 L 12 (by omega), getD_take l0 L 13 (by omega)]
    simp only [c14, if_true, r12, r13, bind, Except.bind, h14, true_and]
    by_cases d12 : isDigit (l0.getD 12 0) = true
    · have e12 := (isDigit_iff _).1 d12
      by_cases d13 : isDigit (l0.getD 13 0) = true
      · have e13 := (isDigit_iff _).1 d13
        simp only [d12, d13, e12, e13, ge_iff_le, and_self, if_true,
          num2_cast _ _ e12.1 e13.1]
        by_cases h15 : 15 ≤ L
        · have c15 : (L : Int) ≥ 15 := by omega
          have r14 : rd (some l0) 14 = .ok (l0.getD 14 0) := by
            simpa using rd_some l0 14 (by omega)
          rw [getD_take l0 L 14 (by omega)]
          simp only [c15, ge_iff_le, if_true, r14, h15, true_and]
          by_cases h46 : l0.getD 14 0 = 46
          · have hfl := fracLoop_spec l0 L hL L 1 (by omega) (by omega)
            simp only [Nat.cast_one] at hfl
            simp only [h46, if_true, Int.toNat_ofNat, hfl, Option.getD_some, pure, Except.pure]
            exact ⟨_, _, rfl, fmtstr_frac l0 L h15 hL h46⟩
          · simp only [h46, if_false, pure, Except.pure]
            exact ⟨_, _, rfl, fmtstr_zero _⟩
        · have c15 : ¬ ((L : Int) ≥ 15) := by omega
          simp only [c15, ge_iff_le, if_false, h15, false_and, pure, Except.pure]
          exact ⟨_, _, rfl, fmtstr_zero _⟩
      · have e13 : ¬ (l0.getD 13 0 ≥ 48 ∧ l0.getD 13 0 ≤ 57) := by
          rw [← isDigit_iff]; exact d13
        simp only [d12, d13, e12, e13, ge_iff_le, and_self, if_true, if_false, and_false,
          pure, Except.pure]
        exact ⟨_, _, rfl, fmtstr_zero _⟩
    · have e12 : ¬ (l0.getD 12 0 ≥ 48 ∧ l0.getD 12 0 ≤ 57) := by
        rw [← isDigit_iff]; exact d12
      simp only [d12, e12, if_false, false_and, pure, Except.pure]
      exact ⟨_, _, rfl, fmtstr_zero _⟩
  · have c14 : ¬ ((L : Int) ≥ 14) := by omega
    simp only [c14, if_false, h14, false_and, pure, Except.pure]
    exact ⟨_, _, rfl, fmtstr_zero _⟩

theorem month_fmt (M : Nat) (h1 : 1 ≤ M) (h2 : M ≤ 12) :
    monthName ((M : Int) - 1) = .ok (monthStr M ++ [0])
      ∧ fmtstr (some (monthStr M ++ [0])) (-1) = monthStr M := by
  interval_cases M <;> decide

theorem num2_lt (a b : Nat) (ha : isDigit a = true) (hb : isDigit b = true) :
    num2 a b < 100 := by
  have h1 := (isDigit_iff a).1 ha
  have h2 := (isDigit_iff b).1 hb
  unfold num2
  omega

theorem getLast_take (l0 : List Nat) (L : Nat) (h0 : 0 < L) (hL : L ≤ l0.length) :
    (l0.take L).getLast? = some (l0.getD (L - 1) 0) := by
  have h1 : L - 1 < l0.length := by omega
  rw [List.getLast?_eq_getElem?]
  simp [List.getElem?_take, hL, h0, List.getD, List.getElem?_eq_getElem h1]

theorem gmt_fmt (c : Nat) :
    fmtstr (some (if (c == 90) = true then cstr " GMT" else cstr "")) (-1)
      = if some c = some 90 then ascii " GMT" else [] := by
  by_cases h : c = 90
  · subst h; decide
  · have : (c == 90) = false := by simpa using h
    simp [this, h, fmtstr, ascii, cstr]

theorem print_ok (bp : BIO) (tm : ASN1_STRING) (l0 : List Nat) (L : Nat)
    (hdata : tm.data = some l0) (hlen : tm.length = (L : Int)) (hL : L ≤ l0.length)
    (h12 : 12 ≤ L) (hdig : ∀ i, i < 12 → isDigit (l0.getD i 0) = true)
    (hm1 : 1 ≤ num2 (l0.getD 4 0) (l0.getD 5 0)) (hm2 : num2 (l0.getD 4 0) (l0.getD 5 0) ≤ 12) :
    ASN1_GENERALIZEDTIME_print bp tm
      = .ok ((BIO_write bp (renderText (l0.take L))).1,
             if (BIO_write bp (renderText (l0.take L))).2 > 0 then 1 else 0) := by
  have c12 : ¬ ((L : Int) < 12) := by omega
  have hidx : (L : Int) - 1 = ((L - 1 : Nat) : Int) := by omega
  have rlast : rd (some l0) ((L : Int) - 1) = .ok (l0.getD (L - 1) 0) := by
    rw [hidx]; exact rd_some l0 (L - 1) (by omega)
  have hloop : digitLoop (some l0) 12 0 = .ok true := by
    have h := digitLoop_spec l0 12 0 (by omega)
    have hall : (l0.take 12).all isDigit = true := (all_take_iff isDigit l0 12 (by omega)).2 hdig
    simpa [hall] using h
  have r0 : rd (some l0) 0 = .ok (l0.getD 0 0) := by simpa using rd_some l0 0 (by omega)
  have r1 : rd (some l0) 1 = .ok (l0.getD 1 0) := by simpa using rd_some l0 1 (by omega)
  have r2 : rd (some l0) 2 = .ok (l0.getD 2 0) := by simpa using rd_some l0 2 (by omega)
  have r3 : rd (some l0) 3 = .ok (l0.getD 3 0) := by simpa using rd_some l0 3 (by omega)
  have r4 : rd (some l0) 4 = .ok (l0.getD 4 0) := by simpa using rd_some l0 4 (by omega)
  have r5 : rd (some l0) 5 = .ok (l0.getD 5 0) := by simpa using rd_some l0 5 (by omega)
  have r6 : rd (some l0) 6 = .ok (l0.getD 6 0) := by simpa using rd_some l0 6 (by omega)
  have r7 : rd (some l0) 7 = .ok (l0.getD 7 0) := by simpa using rd_some l0 7 (by omega)
  have r8 : rd (some l0) 8 = .ok (l0.getD 8 0) := by simpa using rd_some l0 8 (by omega)
  have r9 : rd (some l0) 9 = .ok (l0.getD 9 0) := by simpa using rd_some l0 9 (by omega)
  have r10 : rd (some l0) 10 = .ok (l0.getD 10 0) := by simpa using rd_some l0 10 (by omega)
  have r11 : rd (some l0) 11 = .ok (l0.getD 11 0) := by simpa using rd_some l0 11 (by omega)
  have d0 := hdig 0 (by omega)
  have d1 := hdig 1 (by omega)
  have d2 := hdig 2 (by omega)
  have d3 := hdig 3 (by omega)
  have d4 := hdig 4 (by omega)
  have d5 := hdig 5 (by omega)
  have d6 := hdig 6 (by omega)
  have d7 := hdig 7 (by omega)
  have d8 := hdig 8 (by omega)
  have d9 := hdig 9 (by omega)
  have d10 := hdig 10 (by omega)
  have d11 := hdig 11 (by omega)
  have e0 := (isDigit_iff _).1 d0
  have e1 := (isDigit_iff _).1 d1
  have e2 := (isDigit_iff _).1 d2
  have e3 := (isDigit_iff _).1 d3
  have e4 := (isDigit_iff _).1 d4
  have e5 := (isDigit_iff _).1 d5
  have e6 := (isDigit_iff _).1 d6
  have e7 := (isDigit_iff _).1 d7
  have e8 := (isDigit_iff _).1 d8
  have e9 := (isDigit_iff _).1 d9
  have e10 := (isDigit_iff _).1 d10
  have e11 := (isDigit_iff _).1 d11
  have cM : ¬ (((num2 (l0.getD 4 0) (l0.getD 5 0) : Nat) : Int) > 12
      ∨ ((num2 (l0.getD 4 0) (l0.getD 5 0) : Nat) : Int) < 1) := by omega
  obtain ⟨f, f_len, hps, hfs⟩ := printSeconds_spec tm l0 L hdata hlen hL
  obtain ⟨hmon, hms⟩ := month_fmt _ hm1 hm2
  have hsec : (secFrac (l0.take L)).1 < 100 := by
    unfold secFrac
    split
    · rename_i h
      exact num2_lt _ _ h.2.1 h.2.2
    · simp
  unfold ASN1_GENERALIZEDTIME_print
  simp only [hdata, hlen, c12, if_false, rlast, hloop, r0, r1, r2, r3, r4, r5, r6, r7, r8, r9,
    r10, r11, bind, Except.bind, Bool.not_true, Bool.false_eq_true,
    num2_cast _ _ e4.1 e5.1, num2_cast _ _ e6.1 e7.1, num2_cast _ _ e8.1 e9.1,
    num2_cast _ _ e10.1 e11.1, num4_cast _ _ _ _ e0.1 e1.1 e2.1 e3.1, cM, hps, hmon, hms, hfs,
    fmtint_dayField _ (num2_lt _ _ d6 d7), fmtint_twoDigits _ (num2_lt _ _ d8 d9),
    fmtint_twoDigits _ (num2_lt _ _ d10 d11), fmtint_twoDigits _ hsec, fmtint_decimal,
    gmt_fmt, pure, Except.pure]
  unfold renderText
  rw [getLast_take l0 L (by omega) hL]
  simp only [getD_take l0 L _ (show 0 < L by omega), getD_take l0 L _ (show 1 < L by omega),
    getD_take l0 L _ (show 2 < L by omega), getD_take l0 L _ (show 3 < L by omega),
    getD_take l0 L _ (show 4 < L by omega), getD_take l0 L _ (show 5 < L by omega),
    getD_take l0 L _ (show 6 < L by omega), getD_take l0 L _ (show 7 < L by omega),
    getD_take l0 L _ (show 8 < L by omega), getD_take l0 L _ (show 9 < L by omega),
    getD_take l0 L _ (show 10 < L by omega), getD_take l0 L _ (show 11 < L by omega)]

theorem printErr_eq (bp : BIO) :
    printErr bp = ((BIO_write bp (ascii "Bad time value")).1, 0) := by
  have h : (cstr "Bad time value").take 14 = ascii "Bad time value" := by decide
  simp [printErr, h]

theorem print_err_short (bp : BIO) (tm : ASN1_STRING) (h : tm.length < 12) :
    ASN1_GENERALIZEDTIME_print bp tm = .ok (printErr bp) := by
  simp [ASN1_GENERALIZEDTIME_print, h, pure, Except.pure]

theorem print_err_nondigit (bp : BIO) (tm : ASN1_STRING) (l0 : List Nat) (L : Nat)
    (hdata : tm.data = some l0) (hlen : tm.length = (L : Int)) (hL : L ≤ l0.length)
    (h12 : 12 ≤ L) (hdig : ¬ ∀ i, i < 12 → isDigit (l0.getD i 0) = true) :
    ASN1_GENERALIZEDTIME_print bp tm = .ok (printErr bp) := by
  have c12 : ¬ ((L : Int) < 12) := by omega
  have hidx : (L : Int) - 1 = ((L - 1 : Nat) : Int) := by omega
  have rlast : rd (some l0) ((L : Int) - 1) = .ok (l0.getD (L - 1) 0) := by
    rw [hidx]; exact rd_some l0 (L - 1) (by omega)
  have hloop : digitLoop (some l0) 12 0 = .ok false := by
    have h := digitLoop_spec l0 12 0 (by omega)
    have hall : (l0.take 12).all isDigit = false := by
      rw [← Bool.not_eq_true, all_take_iff isDigit l0 12 (by omega)]
      exact hdig
    simpa [hall] using h
  unfold ASN1_GENERALIZEDTIME_print
  simp only [hdata, hlen, c12, if_false, rlast, hloop, bind, Except.bind, Bool.not_false,
    if_true, pure, Except.pure]

theorem print_err_month (bp : BIO) (tm : ASN1_STRING) (l0 : List Nat) (L : Nat)
    (hdata : tm.data = some l0) (hlen : tm.length = (L : Int)) (hL : L ≤ l0.length)
    (h12 : 12 ≤ L) (hdig : ∀ i, i < 12 → isDigit (l0.getD i 0) = true)
    (hm : ¬ (1 ≤ num2 (l0.getD 4 0) (l0.getD 5 0) ∧ num2 (l0.getD 4 0) (l0.getD 5 0) ≤ 12)) :
    ASN1_GENERALIZEDTIME_print bp tm = .ok (printErr bp) := by
  have c12 : ¬ ((L : Int) < 12) := by omega
  have hidx : (L : Int) - 1 = ((L - 1 : Nat) : Int) := by omega
  have rlast : rd (some l0) ((L : Int) - 1) = .ok (l0.getD (L - 1) 0) := by
    rw [hidx]; exact rd_some l0 (L - 1) (by omega)
  have hloop : digitLoop (some l0) 12 0 = .ok true := by
    have h := digitLoop_spec l0 12 0 (by omega)
    have hall : (l0.take 12).all isDigit = true := (all_take_iff isDigit l0 12 (by omega)).2 hdig
    simpa [hall] using h
  have r0 : rd (some l0) 0 = .ok (l0.getD 0 0) := by simpa using rd_some l0 0 (by omega)
  have r1 : rd (some l0) 1 = .ok (l0.getD 1 0) := by simpa using rd_some l0 1 (by omega)
  have r2 : rd (some l0) 2 = .ok (l0.getD 2 0) := by simpa using rd_some l0 2 (by omega)
  have r3 : rd (some l0) 3 = .ok (l0.getD 3 0) := by simpa using rd_some l0 3 (by omega)
  have r4 : rd (some l0) 4 = .ok (l0.getD 4 0) := by simpa using rd_some l0 4 (by omega)
  have r5 : rd (some l0) 5 = .ok (l0.getD 5 0) := by simpa using rd_some l0 5 (by omega)
  have e4 := (isDigit_iff _).1 (hdig 4 (by omega))
  have e5 := (isDigit_iff _).1 (hdig 5 (by omega))
  have cM : ((num2 (l0.getD 4 0) (l0.getD 5 0) : Nat) : Int) > 12
      ∨ ((num2 (l0.getD 4 0) (l0.getD 5 0) : Nat) : Int) < 1 := by omega
  unfold ASN1_GENERALIZEDTIME_print
  simp only [hdata, hlen, c12, if_false, rlast, hloop, r0, r1, r2, r3, r4, r5, bind,
    Except.bind, Bool.not_true, Bool.false_eq_true, num2_cast _ _ e4.1 e5.1, cM, if_true,
    pure, Except.pure]

theorem renderText_head (b : List Nat) (h1 : 1 ≤ num2 (b.getD 4 0) (b.getD 5 0))
    (h2 : num2 (b.getD 4 0) (b.getD 5 0) ≤ 12) :
    (renderText b).head? ≠ some 66 := by
  unfold renderText
  generalize num2 (b.getD 4 0) (b.getD 5 0) = M at h1 h2
  have hm : (monthStr M).head? ≠ some 66 ∧ monthStr M ≠ [] := by
    interval_cases M <;> decide
  cases hms : monthStr M with
  | nil => exact absurd hms hm.2
  | cons c t =>
    have hc := hm.1
    rw [hms] at hc
    simpa using hc

theorem write_renderText (bp : BIO) (b : List Nat) (h : bp.failing = false) :
    ((BIO_write bp (renderText b)).1, if (BIO_write bp (renderText b)).2 > 0 then (1 : Int) else 0)
      = (bp.accepted (renderText b), 1) := by
  have hpos : (0 : Int) < ((renderText b).length : Int) := by
    have : 0 < (renderText b).length := by
      unfold renderText
      simp only [List.length_append, List.length_cons, List.length_nil]
      omega
    omega
  simp [BIO_write, BIO.accepted, h, hpos]

/-- C1: a value that is exactly 14 ASCII digits (month 01..12) followed by
`Z` is printed, on a sink that accepts the write, as
`<Mon> <d> <HH>:<MM>:<SS> <y> GMT` with return value 1: the month name, the
day in width 2 padded with a space, hour, minute and second as two
zero-padded digits, the year as a plain decimal.  Day, hour, minute and second
are not range-checked. -/
theorem print_wellformed (bp : BIO) (tm : ASN1_STRING) (ds rest : List Nat)
    (hds : ds.length = 14) (hdig : ∀ c ∈ ds, isDigit c = true)
    (hm1 : 1 ≤ num2 (ds.getD 4 0) (ds.getD 5 0)) (hm2 : num2 (ds.getD 4 0) (ds.getD 5 0) ≤ 12)
    (hdata : tm.data = some (ds ++ 90 :: rest)) (hlen : tm.length = 15)
    (hbp : bp.failing = false) :
    ASN1_GENERALIZEDTIME_print bp tm
      = .ok (bp.accepted (monthStr (num2 (ds.getD 4 0) (ds.getD 5 0)) ++ ascii " "
                ++ dayField (num2 (ds.getD 6 0) (ds.getD 7 0)) ++ ascii " "
                ++ twoDigits (num2 (ds.getD 8 0) (ds.getD 9 0)) ++ ascii ":"
                ++ twoDigits (num2 (ds.getD 10 0) (ds.getD 11 0)) ++ ascii ":"
                ++ twoDigits (num2 (ds.getD 12 0) (ds.getD 13 0)) ++ ascii " "
                ++ decimal (num4 (ds.getD 0 0) (ds.getD 1 0) (ds.getD 2 0) (ds.getD 3 0))
                ++ ascii " GMT"), 1) := by
  have htake : (ds ++ 90 :: rest).take 15 = ds ++ [90] := by
    have : ds ++ 90 :: rest = (ds ++ [90]) ++ rest := by simp
    rw [this, List.take_left']
    simp [hds]
  have hget : ∀ i, i < 14 → (ds ++ 90 :: rest).getD i 0 = ds.getD i 0 := by
    intro i hi
    simp [List.getD, List.getElem?_append_left (show i < ds.length by omega)]
  have hget2 : ∀ i, i < 14 → (ds ++ [90]).getD i 0 = ds.getD i 0 := by
    intro i hi
    simp [List.getD, List.getElem?_append_left (show i < ds.length by omega)]
  have hmem : ∀ i, i < 14 → isDigit (ds.getD i 0) = true := by
    intro i hi
    apply hdig
    have h1 : i < ds.length := by omega
    simp [List.getD, List.getElem?_eq_getElem h1]
  have hok := print_ok bp tm (ds ++ 90 :: rest) 15 hdata (by simpa using hlen)
    (by simp only [List.length_append, List.length_cons, hds]; omega) (by omega)
    (fun i hi => by rw [hget i (by omega)]; exact hmem i (by omega))
    (by rw [hget 4 (by omega), hget 5 (by omega)]; exact hm1)
    (by rw [hget 4 (by omega), hget 5 (by omega)]; exact hm2)
  rw [hok, write_renderText bp _ hbp, htake]
  have h14 : (ds ++ [90]).getD 14 0 = 90 := by
    simp [List.getD, List.getElem?_append_right (show ds.length ≤ 14 by omega), hds]
  have hsf : secFrac (ds ++ [90]) = (num2 (ds.getD 12 0) (ds.getD 13 0), []) := by
    unfold secFrac
    rw [hget2 12 (by omega), hget2 13 (by omega), h14,
      if_pos ⟨by simp [hds], hmem 12 (by omega), hmem 13 (by omega)⟩, if_neg (by omega)]
  have hr : renderText (ds ++ [90])
      = monthStr (num2 (ds.getD 4 0) (ds.getD 5 0)) ++ ascii " "
        ++ dayField (num2 (ds.getD 6 0) (ds.getD 7 0)) ++ ascii " "
        ++ twoDigits (num2 (ds.getD 8 0) (ds.getD 9 0)) ++ ascii ":"
        ++ twoDigits (num2 (ds.getD 10 0) (ds.getD 11 0)) ++ ascii ":"
        ++ twoDigits (num2 (ds.getD 12 0) (ds.getD 13 0)) ++ ascii " "
        ++ decimal (num4 (ds.getD 0 0) (ds.getD 1 0) (ds.getD 2 0) (ds.getD 3 0))
        ++ ascii " GMT" := by
    unfold renderText
    rw [hsf, hget2 0 (by omega), hget2 1 (by omega), hget2 2 (by omega), hget2 3 (by omega),
      hget2 4 (by omega), hget2 5 (by omega), hget2 6 (by omega), hget2 7 (by omega),
      hget2 8 (by omega), hget2 9 (by omega), hget2 10 (by omega), hget2 11 (by omega)]
    have e1 : ascii " " = [32] := by decide
    have e2 : ascii ":" = [58] := by decide
    simp [e1, e2]
  rw [hr]

/-- C1, at the input of the spec: `"19991231235959Z"` is printed as
`"Dec 31 23:59:59 1999 GMT"`. -/
theorem print_wellformed_witness :
    ASN1_GENERALIZEDTIME_print ⟨[], [], false⟩
        ⟨15, V_ASN1_GENERALIZEDTIME, some (ascii "19991231235959Z"), 0⟩
      = .ok (⟨ascii "Dec 31 23:59:59 1999 GMT", [ascii "Dec 31 23:59:59 1999 GMT"], false⟩, 1) :=
  (print_wellformed ⟨[], [], false⟩
    ⟨15, V_ASN1_GENERALIZEDTIME, some (ascii "19991231235959Z"), 0⟩
    (ascii "19991231235959") [] (by decide) (by decide) (by decide) (by decide) (by decide)
    (by decide) (by decide)).trans (by decide)

/-- C2: for a value of length at least 15 whose bytes 0-13 are digits (month
01..12), the text printed between the seconds field and the year is byte 14
followed by the maximal run of digits that starts at byte 15 inside the
value (possibly empty) when byte 14 is `.`, copied verbatim, and nothing
otherwise. -/
theorem print_fraction (bp : BIO) (tm : ASN1_STRING) (ds tl rest : List Nat) (c14 : Nat)
    (hds : ds.length = 14) (hdig : ∀ c ∈ ds, isDigit c = true)
    (hm1 : 1 ≤ num2 (ds.getD 4 0) (ds.getD 5 0)) (hm2 : num2 (ds.getD 4 0) (ds.getD 5 0) ≤ 12)
    (hdata : tm.data = some (ds ++ c14 :: tl ++ rest))
    (hlen : tm.length = 15 + (tl.length : Int)) (hbp : bp.failing = false) :
    ASN1_GENERALIZEDTIME_print bp tm
      = .ok (bp.accepted
          ((monthStr (num2 (ds.getD 4 0) (ds.getD 5 0)) ++ ascii " "
              ++ dayField (num2 (ds.getD 6 0) (ds.getD 7 0)) ++ ascii " "
              ++ twoDigits (num2 (ds.getD 8 0) (ds.getD 9 0)) ++ ascii ":"
              ++ twoDigits (num2 (ds.getD 10 0) (ds.getD 11 0)) ++ ascii ":"
              ++ twoDigits (num2 (ds.getD 12 0) (ds.getD 13 0)))
            ++ (if c14 = 46 then c14 :: tl.takeWhile isDigit else [])
            ++ (ascii " "
              ++ decimal (num4 (ds.getD 0 0) (ds.getD 1 0) (ds.getD 2 0) (ds.getD 3 0))
              ++ (if (c14 :: tl).getLast? = some 90 then ascii " GMT" else []))), 1) := by
  have hlen2 : (ds ++ c14 :: tl).length = 15 + tl.length := by
    simp only [List.length_append, List.length_cons, hds]; omega
  have htake : (ds ++ c14 :: tl ++ rest).take (15 + tl.length) = ds ++ c14 :: tl := by
    have : ds ++ c14 :: tl ++ rest = (ds ++ c14 :: tl) ++ rest := by simp
    rw [this, List.take_left' hlen2]
  have hget : ∀ i, i < 14 → (ds ++ c14 :: tl ++ rest).getD i 0 = ds.getD i 0 := by
    intro i hi
    have : ds ++ c14 :: tl ++ rest = ds ++ (c14 :: tl ++ rest) := by simp
    rw [this]
    simp [List.getD, List.getElem?_append_left (show i < ds.length by omega)]
  have hget2 : ∀ i, i < 14 → (ds ++ c14 :: tl).getD i 0 = ds.getD i 0 := by
    intro i hi
    simp [List.getD, List.getElem?_append_left (show i < ds.length by omega)]
  have hmem : ∀ i, i < 14 → isDigit (ds.getD i 0) = true := by
    intro i hi
    apply hdig
    have h1 : i < ds.length := by omega
    simp [List.getD, List.getElem?_eq_getElem h1]
  have hok := print_ok bp tm (ds ++ c14 :: tl ++ rest) (15 + tl.length) hdata
    (by rw [hlen]; push_cast; rfl)
    (by simp only [List.length_append, List.length_cons, hds]; omega) (by omega)
    (fun i hi => by rw [hget i (by omega)]; exact hmem i (by omega))
    (by rw [hget 4 (by omega), hget 5 (by omega)]; exact hm1)
    (by rw [hget 4 (by omega), hget 5 (by omega)]; exact hm2)
  rw [hok, write_renderText bp _ hbp, htake]
  have h14 : (ds ++ c14 :: tl).getD 14 0 = c14 := by
    simp [List.getD, List.getElem?_append_right (show ds.length ≤ 14 by omega), hds]
  have hdrop : (ds ++ c14 :: tl).drop 15 = tl := by
    have : ds ++ c14 :: tl = (ds ++ [c14]) ++ tl := by simp
    rw [this, List.drop_left']
    simp [hds]
  have hsf : secFrac (ds ++ c14 :: tl)
      = (num2 (ds.getD 12 0) (ds.getD 13 0),
          if c14 = 46 then c14 :: tl.takeWhile isDigit else []) := by
    unfold secFrac
    rw [hget2 12 (by omega), hget2 13 (by omega), h14, hdrop,
      if_pos ⟨by omega, hmem 12 (by omega), hmem 13 (by omega)⟩]
    by_cases h46 : c14 = 46
    · rw [if_pos ⟨by omega, h46⟩, if_pos h46, h46]
    · rw [if_neg (fun h => h46 h.2), if_neg h46]
  have hlast : (ds ++ c14 :: tl).getLast? = (c14 :: tl).getLast? := by
    rw [List.getLast?_append_of_ne_nil _ (by simp)]
  have hr : renderText (ds ++ c14 :: tl)
      = (monthStr (num2 (ds.getD 4 0) (ds.getD 5 0)) ++ ascii " "
              ++ dayField (num2 (ds.getD 6 0) (ds.getD 7 0)) ++ ascii " "
              ++ twoDigits (num2 (ds.getD 8 0) (ds.getD 9 0)) ++ ascii ":"
              ++ twoDigits (num2 (ds.getD 10 0) (ds.getD 11 0)) ++ ascii ":"
              ++ twoDigits (num2 (ds.getD 12 0) (ds.getD 13 0)))
            ++ (if c14 = 46 then c14 :: tl.takeWhile isDigit else [])
            ++ (ascii " "
              ++ decimal (num4 (ds.getD 0 0) (ds.getD 1 0) (ds.getD 2 0) (ds.getD 3 0))
              ++ (if (c14 :: tl).getLast? = some 90 then ascii " GMT" else [])) := by
    unfold renderText
    rw [hsf, hlast, hget2 0 (by omega), hget2 1 (by omega), hget2 2 (by omega),
      hget2 3 (by omega), hget2 4 (by omega), hget2 5 (by omega), hget2 6 (by omega),
      hget2 7 (by omega), hget2 8 (by omega), hget2 9 (by omega), hget2 10 (by omega),
      hget2 11 (by omega)]
    have e1 : ascii " " = [32] := by decide
    have e2 : ascii ":" = [58] := by decide
    simp only [e1, e2, List.append_assoc]
  rw [hr]

/-- C2, at the input of the spec: `"20000101000000.5Z"` is printed as
`"Jan  1 00:00:00.5 2000 GMT"`. -/
theorem print_fraction_witness :
    ASN1_GENERALIZEDTIME_print ⟨[], [], false⟩
        ⟨17, V_ASN1_GENERALIZEDTIME, some (ascii "20000101000000.5Z"), 0⟩
      = .ok (⟨ascii "Jan  1 00:00:00.5 2000 GMT", [ascii "Jan  1 00:00:00.5 2000 GMT"], false⟩,
          1) :=
  (print_fraction ⟨[], [], false⟩
    ⟨17, V_ASN1_GENERALIZEDTIME, some (ascii "20000101000000.5Z"), 0⟩
    (ascii "20000101000000") (ascii "5Z") [] 46 (by decide) (by decide) (by decide) (by decide)
    (by decide) (by decide) (by decide)).trans (by decide)

theorem BIO_write_requests (bp : BIO) (t : List Nat) :
    (BIO_write bp t).1.requests = bp.requests ++ [t] := by
  unfold BIO_write
  split <;> rfl

/-- C3: the printer takes its error path (it asks the sink for exactly the 14
bytes `Bad time value`, for nothing else, and returns 0) if and only if the
length is below 12, or a byte among positions 0-11 is not an ASCII digit, or
the month of bytes 4-5 is 0 or above 12; in every other case, on a sink whose
write succeeds, it returns 1. -/
theorem print_rejects (bp : BIO) (tm : ASN1_STRING) (hblk : tm.inBlock) :
    (ASN1_GENERALIZEDTIME_print bp tm = .ok ((BIO_write bp (ascii "Bad time value")).1, 0)
        ↔ malformed tm)
      ∧ (¬ malformed tm → bp.failing = false →
          ∃ bp1, ASN1_GENERALIZEDTIME_print bp tm = .ok (bp1, 1)) := by
  rw [← printErr_eq]
  by_cases h12 : tm.length < 12
  · have hm : malformed tm := Or.inl h12
    exact ⟨⟨fun _ => hm, fun _ => print_err_short bp tm h12⟩, fun h => absurd hm h⟩
  · cases hd : tm.data with
    | none =>
      unfold ASN1_STRING.inBlock at hblk
      rw [hd] at hblk
      simp at hblk
      omega
    | some l0 =>
      unfold ASN1_STRING.inBlock at hblk
      rw [hd] at hblk
      simp only [Option.getD_some] at hblk
      have hlen : tm.length = ((tm.length.toNat : Nat) : Int) :=
        (Int.toNat_of_nonneg (by omega)).symm
      have hL : tm.length.toNat ≤ l0.length := by omega
      have hL12 : 12 ≤ tm.length.toNat := by omega
      have hb : tm.bytes = l0.take tm.length.toNat := by
        simp [ASN1_STRING.bytes, hd]
      have hg : ∀ i, i < 12 → tm.bytes.getD i 0 = l0.getD i 0 := by
        intro i hi
        rw [hb, getD_take l0 _ i (by omega)]
      by_cases hdig : ∀ i, i < 12 → isDigit (l0.getD i 0) = true
      · by_cases hmon : 1 ≤ num2 (l0.getD 4 0) (l0.getD 5 0) ∧ num2 (l0.getD 4 0) (l0.getD 5 0) ≤ 12
        · have hok := print_ok bp tm l0 tm.length.toNat hd hlen hL hL12 hdig hmon.1 hmon.2
          have hnm : ¬ malformed tm := by
            rintro (h | ⟨i, hi, hf⟩ | h | h)
            · exact h12 h
            · rw [hg i hi, hdig i hi] at hf
              exact Bool.noConfusion hf
            · rw [hg 4 (by omega), hg 5 (by omega)] at h; omega
            · rw [hg 4 (by omega), hg 5 (by omega)] at h; omega
          refine ⟨⟨fun h => ?_, fun h => absurd h hnm⟩, fun _ hbp => ?_⟩
          · exfalso
            rw [hok] at h
            have h1 := congrArg (fun r => (r.map (fun x => x.1.requests))) h
            simp only [Except.map, printErr, BIO_write_requests] at h1
            have h2 := List.append_cancel_left (Except.ok.inj h1)
            have h3 : (renderText (l0.take tm.length.toNat)).head? = some 66 := by
              rw [List.cons.inj h2 |>.1]
              decide
            exact renderText_head _ (by rw [getD_take l0 _ 4 (by omega), getD_take l0 _ 5 (by omega)]; exact hmon.1)
              (by rw [getD_take l0 _ 4 (by omega), getD_take l0 _ 5 (by omega)]; exact hmon.2) h3
          · rw [hok, write_renderText bp _ hbp]
            exact ⟨_, rfl⟩
        · have herr := print_err_month bp tm l0 tm.length.toNat hd hlen hL hL12 hdig hmon
          have hm : malformed tm := by
            right; right
            rw [hg 4 (by omega), hg 5 (by omega)]
            omega
          exact ⟨⟨fun _ => hm, fun _ => herr⟩, fun h => absurd hm h⟩
      · have herr := print_err_nondigit bp tm l0 tm.length.toNat hd hlen hL hL12 hdig
        have hm : malformed tm := by
          right; left
          push_neg at hdig
          obtain ⟨i, hi, hf⟩ := hdig
          exact ⟨i, hi, by rw [hg i hi]; simpa using hf⟩
        exact ⟨⟨fun _ => hm, fun _ => herr⟩, fun h => absurd hm h⟩

/-- C3, at the input of the spec: `"abc"` yields `Bad time value` and 0. -/
theorem print_rejects_witness :
    ASN1_GENERALIZEDTIME_print ⟨[], [], false⟩ ⟨3, V_ASN1_GENERALIZEDTIME, some (ascii "abc"), 0⟩
      = .ok (⟨ascii "Bad time value", [ascii "Bad time value"], false⟩, 0) :=
  ((print_rejects ⟨[], [], false⟩ ⟨3, V_ASN1_GENERALIZEDTIME, some (ascii "abc"), 0⟩
    (by decide)).1.2 (Or.inl (by decide))).trans (by decide)

theorem fmtDigits_one (f n : Nat) (acc : List Nat) (h : n < 10) :
    fmtDigits (f + 1) n acc = (48 + n) :: acc := by
  have h1 : n / 10 = 0 := by omega
  have h2 : n % 10 = n := by omega
  simp [fmtDigits, h1, h2]

theorem fmtDigits_two (f n : Nat) (acc : List Nat) (h1 : 10 ≤ n) (h2 : n < 100) :
    fmtDigits (f + 2) n acc = (48 + n / 10) :: (48 + n % 10) :: acc := by
  have h3 : n / 10 ≠ 0 := by omega
  rw [fmtDigits]
  simp only [h3, if_false]
  exact fmtDigits_one f (n / 10) _ (by omega)

theorem fmtDigits_three (f n : Nat) (acc : List Nat) (h1 : 100 ≤ n) (h2 : n < 1000) :
    fmtDigits (f + 3) n acc = (48 + n / 100) :: (48 + n / 10 % 10) :: (48 + n % 10) :: acc := by
  have h3 : n / 10 ≠ 0 := by omega
  rw [fmtDigits]
  simp only [h3, if_false]
  rw [fmtDigits_two f (n / 10) _ (by omega) (by omega)]
  have : n / 10 / 10 = n / 100 := by omega
  rw [this]

theorem fmtDigits_four (f n : Nat) (acc : List Nat) (h1 : 1000 ≤ n) (h2 : n < 10000) :
    fmtDigits (f + 4) n acc
      = (48 + n / 1000) :: (48 + n / 100 % 10) :: (48 + n / 10 % 10) :: (48 + n % 10) :: acc := by
  have h3 : n / 10 ≠ 0 := by omega
  rw [fmtDigits]
  simp only [h3, if_false]
  rw [fmtDigits_three f (n / 10) _ (by omega) (by omega)]
  have e1 : n / 10 / 100 = n / 1000 := by omega
  have e2 : n / 10 / 10 % 10 = n / 100 % 10 := by omega
  rw [e1, e2]

theorem fmtint_fourDigits (n : Nat) (h : n < 10000) : fmtint (n : Int) 4 true = fourDigits n := by
  have hn : ¬ ((n : Int) < 0) := by omega
  simp only [fmtint, Int.natAbs_ofNat, hn, if_false, if_true, List.length_nil, Nat.add_zero,
    List.nil_append, fourDigits]
  by_cases c1 : n < 10
  · rw [fmtDigits_one n n [] c1]
    have e1 : n / 1000 = 0 := by omega
    have e2 : n / 100 % 10 = 0 := by omega
    have e3 : n / 10 % 10 = 0 := by omega
    have e4 : n % 10 = n := by omega
    simp [e1, e2, e3, e4, List.replicate]
  · by_cases c2 : n < 100
    · obtain ⟨f, hf⟩ : ∃ f, n + 1 = f + 2 := ⟨n - 1, by omega⟩
      rw [hf, fmtDigits_two f n [] (by omega) c2]
      have e1 : n / 1000 = 0 := by omega
      have e2 : n / 100 % 10 = 0 := by omega
      have e3 : n / 10 % 10 = n / 10 := by omega
      simp [e1, e2, e3, List.replicate]
    · by_cases c3 : n < 1000
      · obtain ⟨f, hf⟩ : ∃ f, n + 1 = f + 3 := ⟨n - 2, by omega⟩
        rw [hf, fmtDigits_three f n [] (by omega) c3]
        have e1 : n / 1000 = 0 := by omega
        have e2 : n / 100 % 10 = n / 100 := by omega
        simp [e1, e2, List.replicate]
      · obtain ⟨f, hf⟩ : ∃ f, n + 1 = f + 4 := ⟨n - 3, by omega⟩
        rw [hf, fmtDigits_four f n [] (by omega) h]
        simp

theorem gentmText_fits (ts : TM) (h : fitsFormat ts) : gentmText ts = gentmBytes ts := by
  obtain ⟨h1, h2, h3, h4, h5, h6, h7, h8, h9, h10, h11, h12⟩ := h
  have c1 : ts.tm_year + 1900 = (((ts.tm_year + 1900).toNat : Nat) : Int) := by omega
  have c2 : ts.tm_mon + 1 = (((ts.tm_mon + 1).toNat : Nat) : Int) := by omega
  have c3 : ts.tm_mday = ((ts.tm_mday.toNat : Nat) : Int) := by omega
  have c4 : ts.tm_hour = ((ts.tm_hour.toNat : Nat) : Int) := by omega
  have c5 : ts.tm_min = ((ts.tm_min.toNat : Nat) : Int) := by omega
  have c6 : ts.tm_sec = ((ts.tm_sec.toNat : Nat) : Int) := by omega
  unfold gentmText gentmBytes
  rw [c1, c2, c3, c4, c5, c6, fmtint_fourDigits _ (by omega), fmtint_twoDigits _ (by omega),
    fmtint_twoDigits _ (by omega), fmtint_twoDigits _ (by omega), fmtint_twoDigits _ (by omega),
    fmtint_twoDigits _ (by omega)]
  simp only [Int.toNat_ofNat]

theorem gentmBytes_length (ts : TM) : (gentmBytes ts).length = 15 := by
  simp [gentmBytes, fourDigits, twoDigits]

theorem adj_eq (c : Collab) (s : Option ASN1_STRING) (t od os : Int) :
    ASN1_GENERALIZEDTIME_adj c s t od os
      = match adjTarget c s with
        | none => (none, s)
        | some v =>
          match adjustedFields c t od os with
          | none => (none, s)
          | some ts =>
            match adjBlock c v with
            | none => (none, s)
            | some p => (some (stored v p (gentmText ts)),
                          s.map (fun _ => stored v p (gentmText ts))) := by
  unfold ASN1_GENERALIZEDTIME_adj adjTarget adjustedFields adjBlock stored
  cases s with
  | none =>
    cases hn : c.new_value with
    | none => rfl
    | some v =>
      cases hg : c.gmtime t with
      | none => by_cases h0 : od = 0 ∧ os = 0 <;> simp [hg, h0]
      | some ts0 =>
        by_cases h0 : od = 0 ∧ os = 0
        · have h1 : ¬ (od ≠ 0 ∨ os ≠ 0) := by omega
          simp only [hg, h0, h1, and_self, if_true, if_false]
          split <;> simp_all
        · have h1 : od ≠ 0 ∨ os ≠ 0 := by omega
          simp only [hg, h0, h1, if_true, if_false, Option.bind]
          cases ha : c.gmtime_adj ts0 od os with
          | none => rfl
          | some ts => simp only []; split <;> simp_all
  | some s0 =>
    cases hg : c.gmtime t with
    | none => by_cases h0 : od = 0 ∧ os = 0 <;> simp [hg, h0]
    | some ts0 =>
      by_cases h0 : od = 0 ∧ os = 0
      · have h1 : ¬ (od ≠ 0 ∨ os ≠ 0) := by omega
        simp only [hg, h0, h1, and_self, if_true, if_false]
        split <;> simp_all
      · have h1 : od ≠ 0 ∨ os ≠ 0 := by omega
        simp only [hg, h0, h1, if_true, if_false, Option.bind]
        cases ha : c.gmtime_adj ts0 od os with
        | none => rfl
        | some ts => simp only []; split <;> simp_all

theorem stored_fits (v : ASN1_STRING) (p : List Nat) (ts : TM) (h : fitsFormat ts) :
    (stored v p (gentmText ts)).type = V_ASN1_GENERALIZEDTIME
      ∧ (stored v p (gentmText ts)).length = 15
      ∧ (stored v p (gentmText ts)).bytes = gentmBytes ts := by
  have hl := gentmBytes_length ts
  rw [gentmText_fits ts h]
  have hs : BIO_snprintf p 20 (gentmBytes ts) = (gentmBytes ts ++ [0] ++ p.drop 16, 15) := by
    simp [BIO_snprintf, hl]
  refine ⟨rfl, ?_, ?_⟩
  · simp [stored, hs]
  · simp only [ASN1_STRING.bytes, stored, hs, Option.getD_some]
    have : (15 : Int).toNat = (gentmBytes ts).length := by rw [hl]; rfl
    rw [this, List.append_assoc, List.take_left]

theorem gentmBytes_last (ts : TM) : (gentmBytes ts).getLast? = some 90 := by
  simp [gentmBytes]

theorem adj_returns (c : Collab) (s : Option ASN1_STRING) (t od os : Int) (r : ASN1_STRING)
    (hr : (ASN1_GENERALIZEDTIME_adj c s t od os).1 = some r) :
    ∃ v ts p, adjTarget c s = some v ∧ adjustedFields c t od os = some ts
      ∧ adjBlock c v = some p ∧ r = stored v p (gentmText ts) := by
  rw [adj_eq] at hr
  cases hv : adjTarget c s with
  | none => simp [hv] at hr
  | some v =>
    cases hts : adjustedFields c t od os with
    | none => simp [hv, hts] at hr
    | some ts =>
      cases hp : adjBlock c v with
      | none => simp [hv, hts, hp] at hr
      | some p =>
        simp only [hv, hts, hp, Option.some.injEq] at hr
        exact ⟨v, ts, p, rfl, rfl, hp, hr.symm⟩

/-- C4, as stated, fails: the conversion of `t = 253402300800`
(10000-01-01 00:00:00 UTC) succeeds and the value returned by
`ASN1_GENERALIZEDTIME_set` is the 16 bytes `100000101000000Z`. -/
theorem set_year_10000_length :
    OPENSSL_gmtime 253402300800
        = some { tm_sec := 0, tm_min := 0, tm_hour := 0, tm_mday := 1, tm_mon := 0,
                 tm_year := 8100 }
      ∧ (ASN1_GENERALIZEDTIME_set stdCollab none 253402300800).1.map
            (fun r => (r.length, r.bytes))
          = some (16, ascii "100000101000000Z") := by
  decide

/-- C5: when the fields to format have a year `tm_year + 1900` in 0..9999,
`tm_mon` in 0..11 and day, hour, minute and second in 0..99, a successful call
returns a value of type GeneralizedTime and length 15 whose bytes are the year
on four zero-padded digits, then month `tm_mon + 1`, day, hour, minute and
second on two zero-padded digits each, then `Z`. -/
theorem adj_format (c : Collab) (s : Option ASN1_STRING) (t od os : Int) (ts : TM)
    (r : ASN1_STRING) (hts : adjustedFields c t od os = some ts) (hfit : fitsFormat ts)
    (hr : (ASN1_GENERALIZEDTIME_adj c s t od os).1 = some r) :
    r.type = V_ASN1_GENERALIZEDTIME ∧ r.length = 15
      ∧ r.bytes = fourDigits (ts.tm_year + 1900).toNat ++ twoDigits (ts.tm_mon + 1).toNat
          ++ twoDigits ts.tm_mday.toNat ++ twoDigits ts.tm_hour.toNat
          ++ twoDigits ts.tm_min.toNat ++ twoDigits ts.tm_sec.toNat ++ [90] := by
  obtain ⟨v, ts1, p, _, hts1, _, hrv⟩ := adj_returns c s t od os r hr
  rw [hts] at hts1
  cases hts1
  rw [hrv]
  exact stored_fits v p ts hfit

/-- C5, at 1999-12-31 23:59:59 UTC: the call returns `19991231235959Z`. -/
theorem adj_format_witness :
    (ASN1_GENERALIZEDTIME_adj stdCollab none 946684799 0 0).1
        = some { length := 15, type := V_ASN1_GENERALIZEDTIME,
                 data := some (ascii "19991231235959Z" ++ List.replicate 5 0), flags := 0 }
      ∧ ASN1_STRING.bytes ⟨15, V_ASN1_GENERALIZEDTIME,
            some (ascii "19991231235959Z" ++ List.replicate 5 0), 0⟩
          = ascii "19991231235959Z" :=
  ⟨by decide,
   (adj_format stdCollab none 946684799 0 0
      { tm_sec := 59, tm_min := 59, tm_hour := 23, tm_mday := 31, tm_mon := 11, tm_year := 99 }
      { length := 15, type := V_ASN1_GENERALIZEDTIME,
        data := some (ascii "19991231235959Z" ++ List.replicate 5 0), flags := 0 }
      (by decide) (by decide) (by decide)).2.2.trans (by decide)⟩

/-- C6: the fields that are formatted are `gmtime(t)` when both offsets are
0, whatever the adjuster is (it is not invoked), and otherwise the result of
the adjuster applied once, with the two offsets, to the fields `gmtime(t)`;
when the adjuster fails the call returns `NULL`. -/
theorem adj_offsets (c : Collab) (s : Option ASN1_STRING) (t od os : Int) (v : ASN1_STRING)
    (p : List Nat) (hv : adjTarget c s = some v) (hp : adjBlock c v = some p) :
    (od = 0 → os = 0 → ∀ ts0, c.gmtime t = some ts0 →
        ∀ g, (ASN1_GENERALIZEDTIME_adj { c with gmtime_adj := g } s t od os).1
          = some (stored v p (gentmText ts0)))
      ∧ ((od ≠ 0 ∨ os ≠ 0) → ∀ ts0 ts, c.gmtime t = some ts0 →
          c.gmtime_adj ts0 od os = some ts →
          (ASN1_GENERALIZEDTIME_adj c s t od os).1 = some (stored v p (gentmText ts)))
      ∧ ((od ≠ 0 ∨ os ≠ 0) → ∀ ts0, c.gmtime t = some ts0 →
          c.gmtime_adj ts0 od os = none →
          (ASN1_GENERALIZEDTIME_adj c s t od os).1 = none) := by
  refine ⟨?_, ?_, ?_⟩
  · intro h1 h2 ts0 hg g
    have hv1 : adjTarget { c with gmtime_adj := g } s = some v := by
      rw [← hv]; rfl
    have hp1 : adjBlock { c with gmtime_adj := g } v = some p := by
      rw [← hp]; rfl
    have hf : adjustedFields { c with gmtime_adj := g } t od os = some ts0 := by
      simp [adjustedFields, h1, h2, hg]
    rw [adj_eq]; simp only [hv1, hf, hp1]
  · intro h ts0 ts hg ha
    have hf : adjustedFields c t od os = some ts := by
      have h0 : ¬ (od = 0 ∧ os = 0) := by omega
      simp [adjustedFields, h0, hg, ha]
    rw [adj_eq]; simp only [hv, hf, hp]
  · intro h ts0 hg ha
    have hf : adjustedFields c t od os = none := by
      have h0 : ¬ (od = 0 ∧ os = 0) := by omega
      simp [adjustedFields, h0, hg, ha]
    rw [adj_eq]; simp only [hv, hf]

/-- C6, at the input of the spec: 2000-02-28 00:00:00 UTC with a day offset of
1 yields `20000229000000Z`. -/
theorem adj_offsets_witness :
    (ASN1_GENERALIZEDTIME_adj stdCollab none 951696000 1 0).1.map ASN1_STRING.bytes
      = some (ascii "20000229000000Z") := by
  have h := (adj_offsets stdCollab none 951696000 1 0
    { length := 0, type := V_ASN1_GENERALIZEDTIME, data := none, flags := 0 }
    (List.replicate 20 0) (by decide) (by decide)).2.1 (Or.inl (by decide))
    { tm_sec := 0, tm_min := 0, tm_hour := 0, tm_mday := 28, tm_mon := 1, tm_year := 100 }
    { tm_sec := 0, tm_min := 0, tm_hour := 0, tm_mday := 29, tm_mon := 1, tm_year := 100 }
    (by decide) (by decide)
  rw [h]
  decide

theorem stringView_bytes (str : List Nat) :
    (stringView str).bytes = str.takeWhile (fun c => c ≠ 0) := by
  simp only [ASN1_STRING.bytes, stringView, strlen, Option.getD_some, Int.toNat_ofNat]
  induction str with
  | nil => simp
  | cons a l ih =>
    by_cases h : a = 0
    · simp [h]
    · simp [h, List.takeWhile_cons]
      simpa using ih

/-- C9: a value whose type is not GeneralizedTime makes
`asn1_generalizedtime_to_tm` (with or without an output record, which it
leaves alone) and `ASN1_GENERALIZEDTIME_check` return 0 whatever the grammar
core and the bytes are; `ASN1_GENERALIZEDTIME_check(d)` is
`asn1_generalizedtime_to_tm(NULL, d)`; and on a GeneralizedTime value both are
the grammar core applied to `d`. -/
theorem tag_gate (core : TimeCore) (tm : Option TM) (d : ASN1_STRING) :
    (d.type ≠ V_ASN1_GENERALIZEDTIME →
        asn1_generalizedtime_to_tm core tm d = (0, tm)
          ∧ ASN1_GENERALIZEDTIME_check core d = 0)
      ∧ ASN1_GENERALIZEDTIME_check core d = (asn1_generalizedtime_to_tm core none d).1
      ∧ (d.type = V_ASN1_GENERALIZEDTIME →
          asn1_generalizedtime_to_tm core tm d = core tm d
            ∧ ASN1_GENERALIZEDTIME_check core d = (core none d).1) := by
  refine ⟨fun h => ?_, rfl, fun h => ?_⟩
  · simp [asn1_generalizedtime_to_tm, ASN1_GENERALIZEDTIME_check, h]
  · simp [asn1_generalizedtime_to_tm, ASN1_GENERALIZEDTIME_check, h]

/-- C9, at a well-formed string carried by a value of another type (23, the
UTCTime tag): decode and check return 0. -/
theorem tag_gate_witness :
    asn1_generalizedtime_to_tm asn1_time_to_tm (some ⟨0, 0, 0, 0, 0, 0⟩)
        ⟨15, 23, some (ascii "20000101000000Z"), 0⟩ = (0, some ⟨0, 0, 0, 0, 0, 0⟩)
      ∧ ASN1_GENERALIZEDTIME_check asn1_time_to_tm
        ⟨15, 23, some (ascii "20000101000000Z"), 0⟩ = 0 :=
  (tag_gate asn1_time_to_tm (some ⟨0, 0, 0, 0, 0, 0⟩)
    ⟨15, 23, some (ascii "20000101000000Z"), 0⟩).1 (by decide)

theorem parse_digits (y M d h mi sc : Nat) (hy : y < 10000) (hM1 : 1 ≤ M) (hM2 : M ≤ 12)
    (hd : d < 100) (hh : h < 100) (hmi : mi < 100) (hsc : sc < 100) :
    parseGentm (fourDigits y ++ twoDigits M ++ twoDigits d ++ twoDigits h ++ twoDigits mi
        ++ twoDigits sc ++ [90])
      = some { tm_year := (y : Int) - 1900, tm_mon := (M : Int) - 1, tm_mday := d, tm_hour := h,
               tm_min := mi, tm_sec := sc } := by
  have a1 : isDigit (48 + y / 1000) = true := (isDigit_iff _).2 (by omega)
  have a2 : isDigit (48 + y / 100 % 10) = true := (isDigit_iff _).2 (by omega)
  have a3 : isDigit (48 + y / 10 % 10) = true := (isDigit_iff _).2 (by omega)
  have a4 : isDigit (48 + y % 10) = true := (isDigit_iff _).2 (by omega)
  have a5 : isDigit (48 + M / 10) = true := (isDigit_iff _).2 (by omega)
  have a6 : isDigit (48 + M % 10) = true := (isDigit_iff _).2 (by omega)
  have a7 : isDigit (48 + d / 10) = true := (isDigit_iff _).2 (by omega)
  have a8 : isDigit (48 + d % 10) = true := (isDigit_iff _).2 (by omega)
  have a9 : isDigit (48 + h / 10) = true := (isDigit_iff _).2 (by omega)
  have a10 : isDigit (48 + h % 10) = true := (isDigit_iff _).2 (by omega)
  have a11 : isDigit (48 + mi / 10) = true := (isDigit_iff _).2 (by omega)
  have a12 : isDigit (48 + mi % 10) = true := (isDigit_iff _).2 (by omega)
  have a13 : isDigit (48 + sc / 10) = true := (isDigit_iff _).2 (by omega)
  have a14 : isDigit (48 + sc % 10) = true := (isDigit_iff _).2 (by omega)
  have vM : (0 * 10 + (((48 + M / 10 : Nat) : Int) - 48)) * 10 + (((48 + M % 10 : Nat) : Int) - 48)
      = (M : Int) := by omega
  have vy : (((0 * 10 + (((48 + y / 1000 : Nat) : Int) - 48)) * 10
      + (((48 + y / 100 % 10 : Nat) : Int) - 48)) * 10
      + (((48 + y / 10 % 10 : Nat) : Int) - 48)) * 10 + (((48 + y % 10 : Nat) : Int) - 48)
      = (y : Int) := by omega
  have vd : (0 * 10 + (((48 + d / 10 : Nat) : Int) - 48)) * 10 + (((48 + d % 10 : Nat) : Int) - 48)
      = (d : Int) := by omega
  have vh : (0 * 10 + (((48 + h / 10 : Nat) : Int) - 48)) * 10 + (((48 + h % 10 : Nat) : Int) - 48)
      = (h : Int) := by omega
  have vmi : (0 * 10 + (((48 + mi / 10 : Nat) : Int) - 48)) * 10
      + (((48 + mi % 10 : Nat) : Int) - 48) = (mi : Int) := by omega
  have vsc : (0 * 10 + (((48 + sc / 10 : Nat) : Int) - 48)) * 10
      + (((48 + sc % 10 : Nat) : Int) - 48) = (sc : Int) := by omega
  have hM1i : (1 : Int) ≤ (M : Int) := by omega
  have hM2i : (M : Int) ≤ 12 := by omega
  simp only [parseGentm, fourDigits, twoDigits, List.cons_append, List.nil_append,
    List.take_succ_cons, List.take_zero, List.drop_succ_cons, List.drop_zero, List.length_cons,
    List.length_nil, List.all_cons, List.all_nil, a1, a2, a3, a4, a5, a6, a7, a8, a9, a10,
    a11, a12, a13, a14, digitsVal, List.foldl_cons, List.foldl_nil, vM, vy, vd, vh, vmi, vsc,
    hM1i, hM2i, Bool.and_self, beq_self_eq_true, Bool.true_or, true_and, and_self, if_true,
    List.take_nil]

theorem parse_gentmBytes (ts : TM) (h : fitsFormat ts) : parseGentm (gentmBytes ts) = some ts := by
  obtain ⟨h1, h2, h3, h4, h5, h6, h7, h8, h9, h10, h11, h12⟩ := h
  unfold gentmBytes
  rw [parse_digits _ _ _ _ _ _ (by omega) (by omega) (by omega) (by omega) (by omega) (by omega)
    (by omega)]
  have e1 : (((ts.tm_year + 1900).toNat : Nat) : Int) - 1900 = ts.tm_year := by omega
  have e2 : (((ts.tm_mon + 1).toNat : Nat) : Int) - 1 = ts.tm_mon := by omega
  have e3 : ((ts.tm_mday.toNat : Nat) : Int) = ts.tm_mday := by omega
  have e4 : ((ts.tm_hour.toNat : Nat) : Int) = ts.tm_hour := by omega
  have e5 : ((ts.tm_min.toNat : Nat) : Int) = ts.tm_min := by omega
  have e6 : ((ts.tm_sec.toNat : Nat) : Int) = ts.tm_sec := by omega
  rw [e1, e2, e3, e4, e5, e6]

/-- C10, as amended: when the calendar fields of `t` have a year in 0..9999,
a month in 1..12 and two-digit day, hour, minute and second, and a new value
and a block are available, `ASN1_GENERALIZEDTIME_set(NULL, t)` returns a value
that `asn1_generalizedtime_to_tm` decodes successfully, to exactly the
calendar fields of `t`. -/
theorem set_decode_roundtrip (c : Collab) (t : Int) (ts out : TM) (v : ASN1_STRING)
    (p : List Nat) (hg : c.gmtime t = some ts) (hfit : fitsFormat ts)
    (hv : c.new_value = some v) (hp : adjBlock c v = some p) :
    ∃ r, (ASN1_GENERALIZEDTIME_set c none t).1 = some r
      ∧ asn1_generalizedtime_to_tm asn1_time_to_tm (some out) r = (1, some ts) := by
  have hts : adjustedFields c t 0 0 = some ts := by simp [adjustedFields, hg]
  obtain ⟨h1, _, h3⟩ := stored_fits v p ts hfit
  refine ⟨stored v p (gentmText ts), ?_, ?_⟩
  · unfold ASN1_GENERALIZEDTIME_set
    rw [adj_eq]
    have hv1 : adjTarget c none = some v := hv
    simp only [hv1, hts, hp]
  · simp [asn1_generalizedtime_to_tm, h1, asn1_time_to_tm, h3, parse_gentmBytes ts hfit]

/-- C10, as amended, at 2000-02-28 00:00:00 UTC: the value constructed
decodes to the fields of that instant. -/
theorem set_decode_roundtrip_witness :
    (ASN1_GENERALIZEDTIME_set stdCollab none 951696000).1.map
        (fun r => asn1_generalizedtime_to_tm asn1_time_to_tm (some ⟨0, 0, 0, 0, 0, 0⟩) r)
      = some (1, some { tm_sec := 0, tm_min := 0, tm_hour := 0, tm_mday := 28, tm_mon := 1,
                        tm_year := 100 }) := by
  obtain ⟨r, h1, h2⟩ := set_decode_roundtrip stdCollab 951696000
    { tm_sec := 0, tm_min := 0, tm_hour := 0, tm_mday := 28, tm_mon := 1, tm_year := 100 }
    ⟨0, 0, 0, 0, 0, 0⟩ { length := 0, type := V_ASN1_GENERALIZEDTIME, data := none, flags := 0 }
    (List.replicate 20 0) (by decide) (by decide) (by decide) (by decide)
  rw [h1, Option.map_some', h2]

/-- C10, as stated, fails: the conversion of `t = 253402300800`
(10000-01-01 00:00:00 UTC) succeeds, and decoding the value that
`ASN1_GENERALIZEDTIME_set(NULL, t)` returns fails, leaving the output record
as it was. -/
theorem set_decode_year_10000 :
    OPENSSL_gmtime 253402300800
        = some { tm_sec := 0, tm_min := 0, tm_hour := 0, tm_mday := 1, tm_mon := 0,
                 tm_year := 8100 }
      ∧ (ASN1_GENERALIZEDTIME_set stdCollab none 253402300800).1.map
            (fun r => asn1_generalizedtime_to_tm asn1_time_to_tm (some ⟨0, 0, 0, 0, 0, 0⟩) r)
          = some (0, some ⟨0, 0, 0, 0, 0, 0⟩) := by
  decide

theorem civilFromDays_range (z0 : Int) :
    1 ≤ (civilFromDays z0).2.1 ∧ (civilFromDays z0).2.1 ≤ 12
      ∧ 1 ≤ (civilFromDays z0).2.2 ∧ (civilFromDays z0).2.2 ≤ 31 := by
  simp only [civilFromDays]
  split <;> omega

/-- The calendar of the spec always gives month, day, hour, minute and second
in their calendar ranges, so its fields fit the fixed format as soon as the
year is in 0..9999. -/
theorem OPENSSL_gmtime_fits (t : Int) (ts : TM) (h : OPENSSL_gmtime t = some ts)
    (hy1 : 0 ≤ ts.tm_year + 1900) (hy2 : ts.tm_year + 1900 ≤ 9999) : fitsFormat ts := by
  have hr := civilFromDays_range (t / 86400)
  unfold OPENSSL_gmtime tmOfDaySec at h
  simp only at h
  split at h
  · exact absurd h (by simp)
  · have h1 := Option.some.inj h
    subst h1
    simp only [fitsFormat] at hy1 hy2 ⊢
    refine ⟨hy1, hy2, ?_, ?_, ?_, ?_, ?_, ?_, ?_, ?_, ?_, ?_⟩ <;> omega

/-! ### The printer on every value inside its block -/

theorem inBlock_block (tm : ASN1_STRING) (hblk : tm.inBlock) (h12 : ¬ tm.length < 12) :
    ∃ l0, tm.data = some l0 ∧ tm.length = ((tm.length.toNat : Nat) : Int)
      ∧ tm.length.toNat ≤ l0.length ∧ 12 ≤ tm.length.toNat
      ∧ tm.bytes = l0.take tm.length.toNat := by
  cases hd : tm.data with
  | none =>
    unfold ASN1_STRING.inBlock at hblk
    rw [hd] at hblk
    simp at hblk
    omega
  | some l0 =>
    unfold ASN1_STRING.inBlock at hblk
    rw [hd] at hblk
    simp only [Option.getD_some] at hblk
    refine ⟨l0, rfl, (Int.toNat_of_nonneg (by omega)).symm, by omega, by omega, ?_⟩
    simp [ASN1_STRING.bytes, hd]

theorem wellformed_block (tm : ASN1_STRING) (hblk : tm.inBlock) (hm : ¬ malformed tm) :
    ∃ l0, tm.data = some l0 ∧ tm.length = ((tm.length.toNat : Nat) : Int)
      ∧ tm.length.toNat ≤ l0.length ∧ 12 ≤ tm.length.toNat
      ∧ tm.bytes = l0.take tm.length.toNat
      ∧ (∀ i, i < 12 → isDigit (l0.getD i 0) = true)
      ∧ 1 ≤ num2 (l0.getD 4 0) (l0.getD 5 0) ∧ num2 (l0.getD 4 0) (l0.getD 5 0) ≤ 12 := by
  have h12 : ¬ tm.length < 12 := fun h => hm (Or.inl h)
  obtain ⟨l0, hd, hlen, hL, hL12, hb⟩ := inBlock_block tm hblk h12
  have hg : ∀ i, i < 12 → tm.bytes.getD i 0 = l0.getD i 0 := by
    intro i hi
    rw [hb, getD_take l0 _ i (by omega)]
  refine ⟨l0, hd, hlen, hL, hL12, hb, ?_, ?_, ?_⟩
  · intro i hi
    by_contra hf
    exact hm (Or.inr (Or.inl ⟨i, hi, by rw [hg i hi]; simpa using hf⟩))
  · by_contra hf
    exact hm (Or.inr (Or.inr (Or.inl (by rw [hg 4 (by omega), hg 5 (by omega)]; omega))))
  · by_contra hf
    exact hm (Or.inr (Or.inr (Or.inr (by rw [hg 4 (by omega), hg 5 (by omega)]; omega))))

theorem print_malformed (bp : BIO) (tm : ASN1_STRING) (hblk : tm.inBlock) (hm : malformed tm) :
    ASN1_GENERALIZEDTIME_print bp tm = .ok (printErr bp) := by
  by_cases h12 : tm.length < 12
  · exact print_err_short bp tm h12
  · obtain ⟨l0, hd, hlen, hL, hL12, hb⟩ := inBlock_block tm hblk h12
    have hg : ∀ i, i < 12 → tm.bytes.getD i 0 = l0.getD i 0 := by
      intro i hi
      rw [hb, getD_take l0 _ i (by omega)]
    by_cases hdig : ∀ i, i < 12 → isDigit (l0.getD i 0) = true
    · by_cases hmon : 1 ≤ num2 (l0.getD 4 0) (l0.getD 5 0) ∧ num2 (l0.getD 4 0) (l0.getD 5 0) ≤ 12
      · exfalso
        rcases hm with h | ⟨i, hi, hf⟩ | h | h
        · exact h12 h
        · rw [hg i hi, hdig i hi] at hf
          exact Bool.noConfusion hf
        · rw [hg 4 (by omega), hg 5 (by omega)] at h; omega
        · rw [hg 4 (by omega), hg 5 (by omega)] at h; omega
      · exact print_err_month bp tm l0 tm.length.toNat hd hlen hL hL12 hdig hmon
    · exact print_err_nondigit bp tm l0 tm.length.toNat hd hlen hL hL12 hdig

theorem print_text_of_checks (bp : BIO) (tm : ASN1_STRING) (hblk : tm.inBlock)
    (hm : ¬ malformed tm) :
    ASN1_GENERALIZEDTIME_print bp tm
      = .ok ((BIO_write bp (renderText tm.bytes)).1,
             if (BIO_write bp (renderText tm.bytes)).2 > 0 then 1 else 0) := by
  obtain ⟨l0, hd, hlen, hL, hL12, hb, hdig, hm1, hm2⟩ := wellformed_block tm hblk hm
  rw [hb]
  exact print_ok bp tm l0 tm.length.toNat hd hlen hL hL12 hdig hm1 hm2

theorem renderText_parts (b : List Nat) : renderText b = bodyText b ++ gmtText b := by
  have e1 : ascii " " = [32] := by decide
  have e2 : ascii ":" = [58] := by decide
  simp only [renderText, bodyText, headText, yearText, gmtText, e1, e2, List.append_assoc]

theorem write_accepted (bp : BIO) (text : List Nat) (h : bp.failing = false)
    (hne : text ≠ []) :
    ((BIO_write bp text).1, if (BIO_write bp text).2 > 0 then (1 : Int) else 0)
      = (bp.accepted text, 1) := by
  have hpos : (0 : Int) < (text.length : Int) := by
    have : 0 < text.length := List.length_pos.mpr hne
    omega
  simp [BIO_write, BIO.accepted, h, hpos]

theorem printSeconds_absent (tm : ASN1_STRING) (l0 : List Nat) (L : Nat)
    (hdata : tm.data = some l0) (hlen : tm.length = (L : Int)) (hL : L ≤ l0.length)
    (hc : ¬ (14 ≤ L ∧ isDigit (l0.getD 12 0) = true ∧ isDigit (l0.getD 13 0) = true)) :
    printSeconds tm = .ok (0, none, 0) := by
  unfold printSeconds
  rw [hdata, hlen]
  by_cases h14 : 14 ≤ L
  · have c14 : (L : Int) ≥ 14 := by omega
    have r12 : rd (some l0) 12 = .ok (l0.getD 12 0) := by
      simpa using rd_some l0 12 (by omega)
    have r13 : rd (some l0) 13 = .ok (l0.getD 13 0) := by
      simpa using rd_some l0 13 (by omega)
    simp only [c14, if_true, r12, r13, bind, Except.bind]
    by_cases d12 : isDigit (l0.getD 12 0) = true
    · have e12 := (isDigit_iff _).1 d12
      have d13 : ¬ isDigit (l0.getD 13 0) = true := fun h => hc ⟨h14, d12, h⟩
      have e13 : ¬ (l0.getD 13 0 ≥ 48 ∧ l0.getD 13 0 ≤ 57) := by
        rw [← isDigit_iff]; exact d13
      simp only [e12, e13, ge_iff_le, and_self, if_true, if_false, pure, Except.pure]
    · have e12 : ¬ (l0.getD 12 0 ≥ 48 ∧ l0.getD 12 0 ≤ 57) := by
        rw [← isDigit_iff]; exact d12
      simp only [e12, if_false, pure, Except.pure]
  · have c14 : ¬ ((L : Int) ≥ 14) := by omega
    simp only [c14, if_false, pure, Except.pure]

theorem secFrac_present (b : List Nat)
    (hc : 14 ≤ b.length ∧ isDigit (b.getD 12 0) = true ∧ isDigit (b.getD 13 0) = true) :
    secFrac b = (num2 (b.getD 12 0) (b.getD 13 0), fracText b) := by
  unfold secFrac fracText
  rw [if_pos hc]

theorem secFrac_absent (b : List Nat)
    (hc : ¬ (14 ≤ b.length ∧ isDigit (b.getD 12 0) = true ∧ isDigit (b.getD 13 0) = true)) :
    secFrac b = (0, []) := by
  unfold secFrac
  rw [if_neg hc]

/-- C12: for a value that passes the 12-digit and month checks, the seconds
are decoded from bytes 12-13 exactly when the length is at least 14 and both
bytes are ASCII digits, and then the seconds field shows them, followed by the
fraction if there is one; otherwise the seconds stay 0, no fraction is kept
whatever follows, and the seconds field is printed as `00`. -/
theorem print_seconds_optional (bp : BIO) (tm : ASN1_STRING) (hblk : tm.inBlock)
    (hm : ¬ malformed tm) (hbp : bp.failing = false) :
    ((14 ≤ tm.length ∧ isDigit (tm.bytes.getD 12 0) = true
          ∧ isDigit (tm.bytes.getD 13 0) = true) →
        (∃ f f_len, printSeconds tm
            = .ok (((num2 (tm.bytes.getD 12 0) (tm.bytes.getD 13 0) : Nat) : Int), f, f_len))
          ∧ ASN1_GENERALIZEDTIME_print bp tm
            = .ok (bp.accepted (headText tm.bytes
                ++ twoDigits (num2 (tm.bytes.getD 12 0) (tm.bytes.getD 13 0))
                ++ fracText tm.bytes ++ ascii " " ++ yearText tm.bytes ++ gmtText tm.bytes), 1))
      ∧ (¬ (14 ≤ tm.length ∧ isDigit (tm.bytes.getD 12 0) = true
            ∧ isDigit (tm.bytes.getD 13 0) = true) →
          printSeconds tm = .ok (0, none, 0)
            ∧ ASN1_GENERALIZEDTIME_print bp tm
              = .ok (bp.accepted (headText tm.bytes ++ ascii "00" ++ ascii " "
                  ++ yearText tm.bytes ++ gmtText tm.bytes), 1)) := by
  obtain ⟨l0, hd, hlen, hL, hL12, hb, _, _, _⟩ := wellformed_block tm hblk hm
  have hbl : tm.bytes.length = tm.length.toNat := by rw [hb]; simp [hL]
  have hprint := print_text_of_checks bp tm hblk hm
  rw [write_renderText bp _ hbp, renderText_parts] at hprint
  constructor
  · intro hc
    have hc1 : 14 ≤ tm.bytes.length ∧ isDigit (tm.bytes.getD 12 0) = true
        ∧ isDigit (tm.bytes.getD 13 0) = true := ⟨by omega, hc.2.1, hc.2.2⟩
    have hsf := secFrac_present tm.bytes hc1
    constructor
    · obtain ⟨f, f_len, hps, _⟩ := printSeconds_spec tm l0 tm.length.toNat hd hlen hL
      rw [← hb, hsf] at hps
      exact ⟨f, f_len, hps⟩
    · rw [hprint]
      simp only [bodyText, hsf]
  · intro hc
    have hc1 : ¬ (14 ≤ tm.bytes.length ∧ isDigit (tm.bytes.getD 12 0) = true
        ∧ isDigit (tm.bytes.getD 13 0) = true) := fun h => hc ⟨by omega, h.2.1, h.2.2⟩
    have hsf := secFrac_absent tm.bytes hc1
    constructor
    · apply printSeconds_absent tm l0 tm.length.toNat hd hlen hL
      intro h
      apply hc
      have h14 : 14 ≤ tm.length.toNat := h.1
      refine ⟨by omega, ?_, ?_⟩
      · rw [hb, getD_take l0 _ 12 (by omega)]; exact h.2.1
      · rw [hb, getD_take l0 _ 13 (by omega)]; exact h.2.2
    · rw [hprint]
      have e0 : twoDigits 0 = ascii "00" := by decide
      simp only [bodyText, hsf, e0, List.append_nil]

/-- C12, at the input of the spec: `"200001010000Z"`, which has no seconds, is
printed as `"Jan  1 00:00:00 2000 GMT"`. -/
theorem print_seconds_optional_witness :
    ASN1_GENERALIZEDTIME_print ⟨[], [], false⟩
        ⟨13, V_ASN1_GENERALIZEDTIME, some (ascii "200001010000Z"), 0⟩
      = .ok (⟨ascii "Jan  1 00:00:00 2000 GMT", [ascii "Jan  1 00:00:00 2000 GMT"], false⟩, 1) :=
  ((print_seconds_optional ⟨[], [], false⟩
    ⟨13, V_ASN1_GENERALIZEDTIME, some (ascii "200001010000Z"), 0⟩
    (by decide) (by decide) (by decide)).2 (by decide)).2.trans (by decide)

theorem fmtDigits_getLast (fuel n : Nat) (acc : List Nat) (h : acc ≠ []) :
    (fmtDigits fuel n acc).getLast? = acc.getLast? := by
  induction fuel generalizing n acc with
  | zero => rfl
  | succ f ih =>
    simp only [fmtDigits]
    have hcons : ((48 + n % 10) :: acc).getLast? = acc.getLast? := by
      cases acc with
      | nil => exact absurd rfl h
      | cons a t => simp [List.getLast?_cons_cons]
    split
    · exact hcons
    · rw [ih _ _ (List.cons_ne_nil _ _)]
      exact hcons

theorem decimal_getLast (n : Nat) : (decimal n).getLast? = some (48 + n % 10) := by
  rw [← fmtint_decimal]
  have hn : ¬ ((n : Int) < 0) := by omega
  simp only [fmtint, Int.natAbs_ofNat, hn, if_false, List.length_nil, Nat.add_zero,
    Nat.zero_sub, List.replicate_zero, List.nil_append, Bool.false_eq_true, fmtDigits]
  split
  · rfl
  · rw [fmtDigits_getLast _ _ _ (List.cons_ne_nil _ _)]
    rfl

theorem bodyText_getLast (b : List Nat) : ∃ d, (bodyText b).getLast? = some d ∧ d ≠ 84 := by
  refine ⟨48 + num4 (b.getD 0 0) (b.getD 1 0) (b.getD 2 0) (b.getD 3 0) % 10, ?_, by omega⟩
  have hy : (yearText b).getLast?
      = some (48 + num4 (b.getD 0 0) (b.getD 1 0) (b.getD 2 0) (b.getD 3 0) % 10) :=
    decimal_getLast (num4 (b.getD 0 0) (b.getD 1 0) (b.getD 2 0) (b.getD 3 0))
  have hne : yearText b ≠ [] := by
    intro h
    rw [h] at hy
    simp at hy
  unfold bodyText
  rw [List.getLast?_append_of_ne_nil _ hne]
  exact hy

theorem suffix_getLast (l1 l2 : List Nat) (h : l1 <:+ l2) (hne : l1 ≠ []) :
    l2.getLast? = l1.getLast? := by
  obtain ⟨t, rfl⟩ := h
  exact List.getLast?_append_of_ne_nil _ hne

/-- C13: for a value that passes the 12-digit and month checks, on a sink
that accepts the write, the call returns 1 and the output is the text of the
fields, with month, day, hour, minute and year read from positions 0-11
whatever the last byte is, followed by ` GMT` exactly when the last byte is
`Z`: the output ends with ` GMT` if and only if the last byte is `Z`, and
otherwise it ends with the year. -/
theorem print_gmt_marker (bp : BIO) (tm : ASN1_STRING) (hblk : tm.inBlock)
    (hm : ¬ malformed tm) (hbp : bp.failing = false) :
    ASN1_GENERALIZEDTIME_print bp tm
        = .ok (bp.accepted (headText tm.bytes ++ twoDigits (secFrac tm.bytes).1
            ++ (secFrac tm.bytes).2 ++ ascii " " ++ yearText tm.bytes
            ++ (if tm.bytes.getLast? = some 90 then ascii " GMT" else [])), 1)
      ∧ (ascii " GMT" <:+ (headText tm.bytes ++ twoDigits (secFrac tm.bytes).1
            ++ (secFrac tm.bytes).2 ++ ascii " " ++ yearText tm.bytes
            ++ (if tm.bytes.getLast? = some 90 then ascii " GMT" else []))
          ↔ tm.bytes.getLast? = some 90)
      ∧ (tm.bytes.getLast? ≠ some 90 →
          ASN1_GENERALIZEDTIME_print bp tm
            = .ok (bp.accepted (headText tm.bytes ++ twoDigits (secFrac tm.bytes).1
                ++ (secFrac tm.bytes).2 ++ ascii " " ++ yearText tm.bytes), 1)) := by
  have hprint := print_text_of_checks bp tm hblk hm
  rw [write_renderText bp _ hbp, renderText_parts] at hprint
  simp only [bodyText, gmtText] at hprint
  refine ⟨hprint, ?_, ?_⟩
  · constructor
    · intro hsuf
      by_contra hz
      rw [if_neg hz, List.append_nil] at hsuf
      have h1 := suffix_getLast _ _ hsuf (by decide)
      obtain ⟨d, hd, hne⟩ := bodyText_getLast tm.bytes
      simp only [bodyText] at hd
      rw [hd] at h1
      have h2 : (ascii " GMT").getLast? = some 84 := by decide
      rw [h2] at h1
      exact hne (Option.some.inj h1)
    · intro hz
      rw [if_pos hz]
      exact List.suffix_append _ _
  · intro hz
    rw [hprint, if_neg hz, List.append_nil]

/-- C13, at the 12-digit value `"200001010000"`, which has no marker: it is
printed successfully as `"Jan  1 00:00:00 2000"`. -/
theorem print_gmt_marker_witness :
    ASN1_GENERALIZEDTIME_print ⟨[], [], false⟩
        ⟨12, V_ASN1_GENERALIZEDTIME, some (ascii "200001010000"), 0⟩
      = .ok (⟨ascii "Jan  1 00:00:00 2000", [ascii "Jan  1 00:00:00 2000"], false⟩, 1) :=
  ((print_gmt_marker ⟨[], [], false⟩
    ⟨12, V_ASN1_GENERALIZEDTIME, some (ascii "200001010000"), 0⟩
    (by decide) (by decide) (by decide)).2.2 (by decide)).trans (by decide)

/-! ### Reads of the printer -/

theorem fracLoop_bound (l0 : List Nat) (L : Nat) (hL : L ≤ l0.length) (h15 : 15 ≤ L)
    (fuel : Nat) (hf : L ≤ fuel) :
    ∃ n : Int, fracLoop (some l0) (L : Int) fuel 1 = .ok n ∧ 1 ≤ n ∧ 14 + n ≤ (L : Int) := by
  have h := fracLoop_spec l0 L hL fuel 1 (by omega) (by omega)
  simp only [Nat.cast_one] at h
  refine ⟨_, h, by omega, ?_⟩
  have hle := (List.takeWhile_sublist (l := (l0.take L).drop (14 + 1)) isDigit).length_le
  have hlen : ((l0.take L).drop (14 + 1)).length = L - 15 := by
    simp [hL]
  omega

theorem printSeconds_bound (tm : ASN1_STRING) (hblk : tm.inBlock) :
    ∃ s f f_len, printSeconds tm = .ok (s, f, f_len)
      ∧ (f_len = 0 ∨ (1 ≤ f_len ∧ 14 + f_len ≤ tm.length)) := by
  by_cases h14 : tm.length ≥ 14
  · obtain ⟨l0, hd, hlen, hL, _, _⟩ := inBlock_block tm hblk (by omega)
    have hL14 : 14 ≤ tm.length.toNat := by omega
    have r12 : rd (some l0) 12 = .ok (l0.getD 12 0) := by
      simpa using rd_some l0 12 (by omega)
    have r13 : rd (some l0) 13 = .ok (l0.getD 13 0) := by
      simpa using rd_some l0 13 (by omega)
    unfold printSeconds
    simp only [hd, h14, if_true, r12, r13, bind, Except.bind]
    by_cases e12 : l0.getD 12 0 ≥ 48 ∧ l0.getD 12 0 ≤ 57
    · by_cases e13 : l0.getD 13 0 ≥ 48 ∧ l0.getD 13 0 ≤ 57
      · simp only [e12, e13, and_self, if_true]
        by_cases h15 : tm.length ≥ 15
        · have r14 : rd (some l0) 14 = .ok (l0.getD 14 0) := by
            simpa using rd_some l0 14 (by omega)
          simp only [h15, if_true, r14]
          by_cases h46 : l0.getD 14 0 = 46
          · obtain ⟨n, hn, hn1, hn2⟩ := fracLoop_bound l0 tm.length.toNat hL (by omega)
              tm.length.toNat (Nat.le_refl _)
            rw [← hlen] at hn hn2
            simp only [h46, if_true, hn, pure, Except.pure]
            exact ⟨_, _, _, rfl, Or.inr ⟨hn1, hn2⟩⟩
          · simp only [h46, if_false, pure, Except.pure]
            exact ⟨_, _, _, rfl, Or.inl rfl⟩
        · simp only [h15, if_false, pure, Except.pure]
          exact ⟨_, _, _, rfl, Or.inl rfl⟩
      · simp only [e12, e13, and_self, if_true, if_false, pure, Except.pure]
        exact ⟨_, _, _, rfl, Or.inl rfl⟩
    · simp only [e12, if_false, pure, Except.pure]
      exact ⟨_, _, _, rfl, Or.inl rfl⟩
  · unfold printSeconds
    simp only [h14, if_false, pure, Except.pure]
    exact ⟨_, _, _, rfl, Or.inl rfl⟩

theorem malformed_congr (tm tm2 : ASN1_STRING) (hl : tm2.length = tm.length)
    (hb : tm2.bytes = tm.bytes) : malformed tm2 ↔ malformed tm := by
  unfold malformed
  rw [hl, hb]

/-- C14: on a value whose declared length lies inside its block (in
particular a block of exactly that many bytes, with no closing NUL, and
length 0), the printer runs to a result without a read outside the block and
without running out of fuel; the result depends only on the length and on the
bytes below it; the fraction slice kept by the seconds block satisfies
`14 + f_len <= length`; and the fraction scan ends within any fuel of at least
`length` steps. -/
theorem print_reads_in_bounds (bp : BIO) (tm : ASN1_STRING) (hblk : tm.inBlock) :
    (∃ r, ASN1_GENERALIZEDTIME_print bp tm = .ok r)
      ∧ (∀ tm2 : ASN1_STRING, tm2.inBlock → tm2.length = tm.length → tm2.bytes = tm.bytes →
          ASN1_GENERALIZEDTIME_print bp tm2 = ASN1_GENERALIZEDTIME_print bp tm)
      ∧ (∃ s f f_len, printSeconds tm = .ok (s, f, f_len)
          ∧ (f_len = 0 ∨ (1 ≤ f_len ∧ 14 + f_len ≤ tm.length)))
      ∧ (15 ≤ tm.length → ∀ fuel, tm.length.toNat ≤ fuel →
          ∃ n, fracLoop tm.data tm.length fuel 1 = .ok n ∧ 1 ≤ n ∧ 14 + n ≤ tm.length) := by
  refine ⟨?_, ?_, printSeconds_bound tm hblk, ?_⟩
  · by_cases hm : malformed tm
    · exact ⟨_, print_malformed bp tm hblk hm⟩
    · exact ⟨_, print_text_of_checks bp tm hblk hm⟩
  · intro tm2 hblk2 hl hb
    by_cases hm : malformed tm
    · rw [print_malformed bp tm hblk hm,
        print_malformed bp tm2 hblk2 ((malformed_congr tm tm2 hl hb).2 hm)]
    · rw [print_text_of_checks bp tm hblk hm,
        print_text_of_checks bp tm2 hblk2 (fun h => hm ((malformed_congr tm tm2 hl hb).1 h)), hb]
  · intro h15 fuel hf
    obtain ⟨l0, hd, hlen, hL, _, _⟩ := inBlock_block tm hblk (by omega)
    obtain ⟨n, hn, hn1, hn2⟩ := fracLoop_bound l0 tm.length.toNat hL (by omega) fuel hf
    rw [← hlen] at hn hn2
    rw [hd]
    exact ⟨n, hn, hn1, hn2⟩

/-- C14, at the 17 bytes `20000101000000.55` (no `Z`, the fraction running to
the end of the value): a block that goes on with the digit `9` and a NUL
after the declared length is printed like the block of exactly 17 bytes, as
`Jan  1 00:00:00.55 2000`. -/
theorem print_reads_in_bounds_witness :
    ASN1_GENERALIZEDTIME_print ⟨[], [], false⟩
        ⟨17, V_ASN1_GENERALIZEDTIME, some (ascii "20000101000000.55" ++ [57, 0]), 0⟩
      = .ok (⟨ascii "Jan  1 00:00:00.55 2000", [ascii "Jan  1 00:00:00.55 2000"], false⟩, 1) :=
  ((print_reads_in_bounds ⟨[], [], false⟩
    ⟨17, V_ASN1_GENERALIZEDTIME, some (ascii "20000101000000.55"), 0⟩ (by decide)).2.1
    ⟨17, V_ASN1_GENERALIZEDTIME, some (ascii "20000101000000.55" ++ [57, 0]), 0⟩
    (by decide) (by decide) (by decide)).trans (by decide)

/-- C15: on every input the month-name lookup either is reached with an
index `M - 1` between 0 and 11 and succeeds (the value lies inside its block
and passes the checks, `M` being the month of bytes 4-5), or is not reached:
the printer has taken its error path, or the first read `v[length - 1]` was
already outside the block.  Whatever the bytes are, a month that passes the
guard `M > 12 || M < 1` indexes the 12-entry table successfully. -/
theorem month_lookup_in_range (bp : BIO) (tm : ASN1_STRING) :
    ((tm.inBlock ∧ ¬ malformed tm
          ∧ 0 ≤ ((num2 (tm.bytes.getD 4 0) (tm.bytes.getD 5 0) : Nat) : Int) - 1
          ∧ ((num2 (tm.bytes.getD 4 0) (tm.bytes.getD 5 0) : Nat) : Int) - 1 ≤ 11
          ∧ monthName (((num2 (tm.bytes.getD 4 0) (tm.bytes.getD 5 0) : Nat) : Int) - 1)
              = .ok (monthStr (num2 (tm.bytes.getD 4 0) (tm.bytes.getD 5 0)) ++ [0])
          ∧ ASN1_GENERALIZEDTIME_print bp tm
              = .ok ((BIO_write bp (renderText tm.bytes)).1,
                     if (BIO_write bp (renderText tm.bytes)).2 > 0 then 1 else 0))
        ∨ ASN1_GENERALIZEDTIME_print bp tm = .ok (printErr bp)
        ∨ (¬ tm.length < 12 ∧ rd tm.data (tm.length - 1) = .error .outOfBounds
            ∧ ASN1_GENERALIZEDTIME_print bp tm = .error .outOfBounds))
      ∧ (∀ M : Int, ¬ (M > 12 ∨ M < 1) →
          0 ≤ M - 1 ∧ M - 1 ≤ 11 ∧ ∃ name, monthName (M - 1) = .ok name ∧ name.length = 4) := by
  constructor
  · by_cases hblk : tm.inBlock
    · by_cases hm : malformed tm
      · exact Or.inr (Or.inl (print_malformed bp tm hblk hm))
      · obtain ⟨l0, _, _, _, hL12, hb, _, hm1, hm2⟩ := wellformed_block tm hblk hm
        have h4 : tm.bytes.getD 4 0 = l0.getD 4 0 := by rw [hb, getD_take l0 _ 4 (by omega)]
        have h5 : tm.bytes.getD 5 0 = l0.getD 5 0 := by rw [hb, getD_take l0 _ 5 (by omega)]
        rw [← h4, ← h5] at hm1 hm2
        exact Or.inl ⟨hblk, hm, by omega, by omega, (month_fmt _ hm1 hm2).1,
          print_text_of_checks bp tm hblk hm⟩
    · by_cases h12 : tm.length < 12
      · exact Or.inr (Or.inl (print_err_short bp tm h12))
      · have hrd : rd tm.data (tm.length - 1) = .error .outOfBounds := by
          unfold ASN1_STRING.inBlock at hblk
          cases hd : tm.data with
          | none => rfl
          | some l0 =>
            rw [hd] at hblk
            simp only [Option.getD_some] at hblk
            have h0 : 0 ≤ tm.length - 1 := by omega
            have hnone : l0.get? (tm.length - 1).toNat = none := by
              rw [List.get?_eq_none]
              omega
            simp only [rd, h0, if_true, hnone]
        refine Or.inr (Or.inr ⟨h12, hrd, ?_⟩)
        unfold ASN1_GENERALIZEDTIME_print
        simp only [h12, if_false, hrd, bind, Except.bind]
  · intro M hM
    have h1 : 1 ≤ M := by omega
    have h2 : M ≤ 12 := by omega
    refine ⟨by omega, by omega, ?_⟩
    obtain ⟨k, rfl⟩ : ∃ k : Nat, M = (k : Int) := ⟨M.toNat, by omega⟩
    have hk1 : 1 ≤ k := by omega
    have hk2 : k ≤ 12 := by omega
    refine ⟨monthStr k ++ [0], (month_fmt k hk1 hk2).1, ?_⟩
    interval_cases k <;> decide

/-- C15, at December: a month of 12 passes the guard and indexes entry 11 of
the table. -/
theorem month_lookup_in_range_witness :
    (0 : Int) ≤ 12 - 1 ∧ (12 : Int) - 1 ≤ 11
      ∧ ∃ name, monthName (12 - 1) = .ok name ∧ name.length = 4 :=
  (month_lookup_in_range ⟨[], [], false⟩
    ⟨15, V_ASN1_GENERALIZEDTIME, some (ascii "19991231235959Z"), 0⟩).2 12 (by decide)

/-! ### Buffer handling and failure of the constructor -/

theorem snprintf_length (p text : List Nat) (h : text.length < 20) :
    (BIO_snprintf p 20 text).2 = (text.length : Int) := by
  simp [BIO_snprintf, h]

/-- C16, as amended: the block of the value written to is reused when it is
present and the length of the value, as a `size_t`, is at least 20 (the
allocator is then not consulted); otherwise a block of 20 bytes is allocated
and replaces the old one, and the call returns `NULL` when that allocation
fails; and the length field after a successful call is the number of
characters formatted whenever they fit the 20 bytes with their NUL. -/
theorem adj_buffer (c : Collab) (s : Option ASN1_STRING) (t od os : Int) (v : ASN1_STRING)
    (ts : TM) (hv : adjTarget c s = some v) (hts : adjustedFields c t od os = some ts) :
    (∀ blk, v.data = some blk → 20 ≤ size_t_of v.length →
        ∀ m, (ASN1_GENERALIZEDTIME_adj { c with malloc := m } s t od os).1
          = some (stored v blk (gentmText ts)))
      ∧ ((v.data = none ∨ size_t_of v.length < 20) →
          (∀ p, c.malloc 20 = some p →
              (ASN1_GENERALIZEDTIME_adj c s t od os).1 = some (stored v p (gentmText ts)))
            ∧ (c.malloc 20 = none → (ASN1_GENERALIZEDTIME_adj c s t od os).1 = none))
      ∧ (∀ r, (ASN1_GENERALIZEDTIME_adj c s t od os).1 = some r →
          (gentmText ts).length < 20 → r.length = ((gentmText ts).length : Int)) := by
  refine ⟨?_, ?_, ?_⟩
  · intro blk hblk hlen m
    have hv1 : adjTarget { c with malloc := m } s = some v := by rw [← hv]; rfl
    have hts1 : adjustedFields { c with malloc := m } t od os = some ts := by rw [← hts]; rfl
    have hcond : ¬ (v.data = none ∨ size_t_of v.length < 20) := by
      rintro (h | h)
      · rw [hblk] at h; exact Option.noConfusion h
      · omega
    have hp : adjBlock { c with malloc := m } v = some blk := by
      unfold adjBlock
      rw [if_neg hcond, hblk]
    rw [adj_eq]; simp only [hv1, hts1, hp]
  · intro hcond
    constructor
    · intro p hm
      have hp : adjBlock c v = some p := by
        unfold adjBlock
        rw [if_pos hcond, hm]
      rw [adj_eq]; simp only [hv, hts, hp]
    · intro hm
      have hp : adjBlock c v = none := by
        unfold adjBlock
        rw [if_pos hcond, hm]
      rw [adj_eq]; simp only [hv, hts, hp]
  · intro r hr hfit
    obtain ⟨v1, ts1, p, hv1, hts1, _, hrv⟩ := adj_returns c s t od os r hr
    rw [hts] at hts1
    cases hts1
    rw [hrv]
    exact snprintf_length p _ hfit

/-- C16, as amended, at a target whose value has length 20 in a block of 21
bytes: the block is reused, also with an allocator that always fails. -/
theorem adj_buffer_witness :
    (ASN1_GENERALIZEDTIME_adj { stdCollab with malloc := fun _ => none }
        (some ⟨20, V_ASN1_GENERALIZEDTIME, some (List.replicate 21 7), 0⟩) 951696000 0 0).1
      = some ⟨15, V_ASN1_GENERALIZEDTIME,
          some (ascii "20000228000000Z" ++ [0] ++ List.replicate 5 7), 0⟩ :=
  ((adj_buffer stdCollab (some ⟨20, V_ASN1_GENERALIZEDTIME, some (List.replicate 21 7), 0⟩)
    951696000 0 0 ⟨20, V_ASN1_GENERALIZEDTIME, some (List.replicate 21 7), 0⟩
    { tm_sec := 0, tm_min := 0, tm_hour := 0, tm_mday := 28, tm_mon := 1, tm_year := 100 }
    (by decide) (by decide)).1 (List.replicate 21 7) (by decide) (by decide)
    (fun _ => none)).trans (by decide)

/-- C16, as stated, fails: a target that holds the 15 bytes `19991231235959Z`
in a block of 16 bytes is not reused. With an allocator that fails the call
returns `NULL`, and with an allocator that hands out blocks filled with 255 the
value returned lies in a new block of 20 bytes. -/
theorem short_value_not_reused :
    (ASN1_GENERALIZEDTIME_adj { stdCollab with malloc := fun _ => none }
        (some ⟨15, V_ASN1_GENERALIZEDTIME, some (ascii "19991231235959Z" ++ [0]), 0⟩)
        951696000 0 0).1 = none
      ∧ (ASN1_GENERALIZEDTIME_adj
          { stdCollab with malloc := fun n => some (List.replicate n 255) }
          (some ⟨15, V_ASN1_GENERALIZEDTIME, some (ascii "19991231235959Z" ++ [0]), 0⟩)
          951696000 0 0).1.map (fun r => r.data)
        = some (some (ascii "20000228000000Z" ++ [0, 255, 255, 255, 255])) := by
  decide

/-- C17: when the call on a caller-supplied target returns `NULL`, which
happens exactly when the calendar conversion or the offset adjustment fails
or no block can be had, the target is exactly what it was before the call;
and when the call returns a value, that value is the target afterwards. -/
theorem adj_atomic (c : Collab) (s0 : ASN1_STRING) (t od os : Int) :
    ((ASN1_GENERALIZEDTIME_adj c (some s0) t od os).1 = none →
        (ASN1_GENERALIZEDTIME_adj c (some s0) t od os).2 = some s0)
      ∧ ((ASN1_GENERALIZEDTIME_adj c (some s0) t od os).1 = none
          ↔ adjustedFields c t od os = none ∨ adjBlock c s0 = none)
      ∧ (∀ r, (ASN1_GENERALIZEDTIME_adj c (some s0) t od os).1 = some r →
          (ASN1_GENERALIZEDTIME_adj c (some s0) t od os).2 = some r) := by
  have hv : adjTarget c (some s0) = some s0 := rfl
  rw [adj_eq]
  simp only [hv]
  cases hts : adjustedFields c t od os with
  | none => simp
  | some ts =>
    cases hp : adjBlock c s0 with
    | none => simp
    | some p => simp

/-- C17, at an epoch time whose year does not fit an `int`: the conversion
fails, the call returns `NULL` and the target still holds `19991231235959Z`. -/
theorem adj_atomic_witness :
    (ASN1_GENERALIZEDTIME_adj stdCollab
        (some ⟨15, V_ASN1_GENERALIZEDTIME, some (ascii "19991231235959Z" ++ [0]), 0⟩)
        1000000000000000000 0 0).2
      = some ⟨15, V_ASN1_GENERALIZEDTIME, some (ascii "19991231235959Z" ++ [0]), 0⟩ :=
  (adj_atomic stdCollab
    ⟨15, V_ASN1_GENERALIZEDTIME, some (ascii "19991231235959Z" ++ [0]), 0⟩
    1000000000000000000 0 0).1 (by decide)

/-- C19: `ASN1_GENERALIZEDTIME_set(s, t)` returns the same result and leaves
the same target as `ASN1_GENERALIZEDTIME_adj(s, t, 0, 0)`, for every target
(`NULL` or not) and every `t`, and is the same whatever the offset adjuster
is: the adjuster is not invoked. -/
theorem set_is_adj_zero (c : Collab) (s : Option ASN1_STRING) (t : Int) :
    ASN1_GENERALIZEDTIME_set c s t = ASN1_GENERALIZEDTIME_adj c s t 0 0
      ∧ ∀ g, ASN1_GENERALIZEDTIME_set { c with gmtime_adj := g } s t
          = ASN1_GENERALIZEDTIME_set c s t := by
  refine ⟨rfl, fun g => ?_⟩
  unfold ASN1_GENERALIZEDTIME_set
  rw [adj_eq, adj_eq]
  have h1 : adjTarget { c with gmtime_adj := g } s = adjTarget c s := rfl
  have h2 : adjustedFields { c with gmtime_adj := g } t 0 0 = adjustedFields c t 0 0 := by
    simp [adjustedFields]
  have h3 : ∀ v, adjBlock { c with gmtime_adj := g } v = adjBlock c v := fun _ => rfl
  rw [h1, h2]
  simp only [h3]

/-! ### Printing a constructed value -/

theorem num2_digits (a b : Nat) : num2 (48 + a) (48 + b) = a * 10 + b := by
  simp [num2]

theorem num4_digits (a b c d : Nat) :
    num4 (48 + a) (48 + b) (48 + c) (48 + d) = a * 1000 + b * 100 + c * 10 + d := by
  simp [num4]

theorem renderText_stamp (y M d h mi sc : Nat) (hsc : sc < 100) :
    renderText (fourDigits y ++ twoDigits M ++ twoDigits d ++ twoDigits h ++ twoDigits mi
        ++ twoDigits sc ++ [90])
      = monthStr M ++ ascii " " ++ dayField d ++ ascii " " ++ twoDigits h ++ ascii ":"
          ++ twoDigits mi ++ ascii ":" ++ twoDigits sc ++ ascii " " ++ decimal y
          ++ ascii " GMT" := by
  have e1 : ascii " " = [32] := by decide
  have e2 : ascii ":" = [58] := by decide
  have a13 : isDigit (48 + sc / 10) = true := (isDigit_iff _).2 (by omega)
  have a14 : isDigit (48 + sc % 10) = true := (isDigit_iff _).2 (by omega)
  have vy : y / 1000 * 1000 + y / 100 % 10 * 100 + y / 10 % 10 * 10 + y % 10 = y := by omega
  have vM : M / 10 * 10 + M % 10 = M := by omega
  have vd : d / 10 * 10 + d % 10 = d := by omega
  have vh : h / 10 * 10 + h % 10 = h := by omega
  have vmi : mi / 10 * 10 + mi % 10 = mi := by omega
  have vsc : sc / 10 * 10 + sc % 10 = sc := by omega
  have hsf : secFrac [48 + y / 1000, 48 + y / 100 % 10, 48 + y / 10 % 10, 48 + y % 10,
      48 + M / 10, 48 + M % 10, 48 + d / 10, 48 + d % 10, 48 + h / 10, 48 + h % 10,
      48 + mi / 10, 48 + mi % 10, 48 + sc / 10, 48 + sc % 10, 90] = (sc, []) := by
    unfold secFrac
    have g12 : List.getD [48 + y / 1000, 48 + y / 100 % 10, 48 + y / 10 % 10, 48 + y % 10,
      48 + M / 10, 48 + M % 10, 48 + d / 10, 48 + d % 10, 48 + h / 10, 48 + h % 10,
      48 + mi / 10, 48 + mi % 10, 48 + sc / 10, 48 + sc % 10, 90] 12 0 = 48 + sc / 10 := rfl
    have g13 : List.getD [48 + y / 1000, 48 + y / 100 % 10, 48 + y / 10 % 10, 48 + y % 10,
      48 + M / 10, 48 + M % 10, 48 + d / 10, 48 + d % 10, 48 + h / 10, 48 + h % 10,
      48 + mi / 10, 48 + mi % 10, 48 + sc / 10, 48 + sc % 10, 90] 13 0 = 48 + sc % 10 := rfl
    have g14 : List.getD [48 + y / 1000, 48 + y / 100 % 10, 48 + y / 10 % 10, 48 + y % 10,
      48 + M / 10, 48 + M % 10, 48 + d / 10, 48 + d % 10, 48 + h / 10, 48 + h % 10,
      48 + mi / 10, 48 + mi % 10, 48 + sc / 10, 48 + sc % 10, 90] 14 0 = 90 := rfl
    rw [g12, g13, g14, if_pos ⟨by simp, a13, a14⟩, if_neg (by omega), num2_digits, vsc]
  simp only [fourDigits, twoDigits, List.cons_append, List.nil_append]
  unfold renderText
  rw [hsf]
  simp only [List.getD_cons_zero, List.getD_cons_succ, num2_digits, num4_digits, vy, vM, vd,
    vh, vmi, e1, e2, List.append_assoc, twoDigits]
  simp

theorem gentmBytes_digits (ts : TM) (h : fitsFormat ts) :
    ∀ i, i < 12 → isDigit ((gentmBytes ts).getD i 0) = true := by
  obtain ⟨h1, h2, h3, h4, h5, h6, h7, h8, h9, h10, h11, h12⟩ := h
  intro i hi
  simp only [gentmBytes, fourDigits, twoDigits, List.cons_append, List.nil_append]
  rw [isDigit_iff]
  interval_cases i <;> simp only [List.getD_cons_zero, List.getD_cons_succ] <;> omega

/-- C18: for broken-down fields with a year in 0..9999, month 1..12, day
1..31, hour 0..23, minute 0..59 and second 0..60, the value that
`ASN1_GENERALIZEDTIME_adj` returns has 15 bytes and, on a sink that accepts
the write, `ASN1_GENERALIZEDTIME_print` returns 1 for it and renders it as
`<Mon> <d> <HH>:<MM>:<SS> <year> GMT` with exactly those fields and no
fraction (so not as `Bad time value`). -/
theorem adj_print_roundtrip (c : Collab) (s : Option ASN1_STRING) (t od os : Int) (ts : TM)
    (r : ASN1_STRING) (bp : BIO) (hts : adjustedFields c t od os = some ts)
    (hy : 0 ≤ ts.tm_year + 1900 ∧ ts.tm_year + 1900 ≤ 9999)
    (hmon : 1 ≤ ts.tm_mon + 1 ∧ ts.tm_mon + 1 ≤ 12)
    (hday : 1 ≤ ts.tm_mday ∧ ts.tm_mday ≤ 31) (hhour : 0 ≤ ts.tm_hour ∧ ts.tm_hour ≤ 23)
    (hmin : 0 ≤ ts.tm_min ∧ ts.tm_min ≤ 59) (hsec : 0 ≤ ts.tm_sec ∧ ts.tm_sec ≤ 60)
    (hr : (ASN1_GENERALIZEDTIME_adj c s t od os).1 = some r) (hbp : bp.failing = false) :
    r.length = 15
      ∧ ASN1_GENERALIZEDTIME_print bp r
        = .ok (bp.accepted (monthStr (ts.tm_mon + 1).toNat ++ ascii " "
            ++ dayField ts.tm_mday.toNat ++ ascii " " ++ twoDigits ts.tm_hour.toNat ++ ascii ":"
            ++ twoDigits ts.tm_min.toNat ++ ascii ":" ++ twoDigits ts.tm_sec.toNat ++ ascii " "
            ++ decimal (ts.tm_year + 1900).toNat ++ ascii " GMT"), 1) := by
  have hfit : fitsFormat ts := by
    unfold fitsFormat
    omega
  obtain ⟨v, ts1, p, _, hts1, _, hrv⟩ := adj_returns c s t od os r hr
  rw [hts] at hts1
  cases hts1
  have hl := gentmBytes_length ts
  have hdata : r.data = some (gentmBytes ts ++ ([0] ++ p.drop 16)) := by
    rw [hrv, gentmText_fits ts hfit]
    simp [stored, BIO_snprintf, hl]
  have hlen : r.length = 15 := by
    rw [hrv]; exact (stored_fits v p ts hfit).2.1
  have htake : (gentmBytes ts ++ ([0] ++ p.drop 16)).take 15 = gentmBytes ts := by
    rw [← hl, List.take_left]
  have hget : ∀ i, i < 15 →
      (gentmBytes ts ++ ([0] ++ p.drop 16)).getD i 0 = (gentmBytes ts).getD i 0 := by
    intro i hi
    simp [List.getD, List.getElem?_append_left (show i < (gentmBytes ts).length by omega)]
  have hdig := gentmBytes_digits ts hfit
  have hM : num2 ((gentmBytes ts).getD 4 0) ((gentmBytes ts).getD 5 0)
      = (ts.tm_mon + 1).toNat := by
    simp only [gentmBytes, fourDigits, twoDigits, List.cons_append, List.nil_append,
      List.getD_cons_zero, List.getD_cons_succ, num2_digits]
    omega
  refine ⟨hlen, ?_⟩
  have hok := print_ok bp r (gentmBytes ts ++ ([0] ++ p.drop 16)) 15 hdata
    (by simpa using hlen) (by simp only [List.length_append, hl]; omega) (by omega)
    (fun i hi => by rw [hget i (by omega)]; exact hdig i hi)
    (by rw [hget 4 (by omega), hget 5 (by omega), hM]; omega)
    (by rw [hget 4 (by omega), hget 5 (by omega), hM]; omega)
  rw [hok, write_renderText bp _ hbp, htake]
  have hrt : renderText (gentmBytes ts) = _ :=
    renderText_stamp (ts.tm_year + 1900).toNat (ts.tm_mon + 1).toNat ts.tm_mday.toNat
      ts.tm_hour.toNat ts.tm_min.toNat ts.tm_sec.toNat (by omega)
  rw [hrt]

/-- C18, at 1999-12-31 23:59:59 UTC: the value constructed is printed as
`"Dec 31 23:59:59 1999 GMT"`. -/
theorem adj_print_roundtrip_witness :
    ASN1_GENERALIZEDTIME_print ⟨[], [], false⟩
        ⟨15, V_ASN1_GENERALIZEDTIME, some (ascii "19991231235959Z" ++ List.replicate 5 0), 0⟩
      = .ok (⟨ascii "Dec 31 23:59:59 1999 GMT", [ascii "Dec 31 23:59:59 1999 GMT"], false⟩, 1) :=
  ((adj_print_roundtrip stdCollab none 946684799 0 0
    { tm_sec := 59, tm_min := 59, tm_hour := 23, tm_mday := 31, tm_mon := 11, tm_year := 99 }
    ⟨15, V_ASN1_GENERALIZEDTIME, some (ascii "19991231235959Z" ++ List.replicate 5 0), 0⟩
    ⟨[], [], false⟩ (by decide) (by decide) (by decide) (by decide) (by decide) (by decide)
    (by decide) (by decide) (by decide)).2).trans (by decide)

/-! ### Rejections of the grammar -/

theorem drop_singleton_getLast (l : List Nat) (k x : Nat) (h : l.drop k = [x]) :
    l.getLast? = some x := by
  have hl : l = l.take k ++ [x] := by
    rw [← h, List.take_append_drop]
  rw [hl, List.getLast?_append_of_ne_nil _ (List.cons_ne_nil _ _)]
  rfl

theorem drop_take_two (b : List Nat) (h : 6 ≤ b.length) :
    (b.drop 4).take 2 = [b.getD 4 0, b.getD 5 0] := by
  have h4 : 4 < b.length := by omega
  have h5 : 5 < b.length := by omega
  rw [List.drop_eq_getElem_cons h4, List.take_succ_cons, List.drop_eq_getElem_cons h5,
    List.take_succ_cons, List.take_zero]
  simp [List.getD, List.getElem?_eq_getElem h4, List.getElem?_eq_getElem h5]

theorem parse_accepts (b : List Nat) (f : TM) (h : parseGentm b = some f) :
    14 ≤ b.length ∧ (∀ i, i < 14 → isDigit (b.getD i 0) = true)
      ∧ 1 ≤ digitsVal [b.getD 4 0, b.getD 5 0] ∧ digitsVal [b.getD 4 0, b.getD 5 0] ≤ 12
      ∧ b.getLast? = some 90 := by
  unfold parseGentm at h
  simp only at h
  split at h
  · rename_i hc
    obtain ⟨h14, hall, hm1, hm2, htail⟩ := hc
    have hlen : 14 ≤ b.length := by
      rw [List.length_take] at h14
      omega
    have hdt := drop_take_two b (by omega)
    rw [hdt] at hm1 hm2
    refine ⟨hlen, (all_take_iff isDigit b 14 hlen).1 hall, hm1, hm2, ?_⟩
    simp only [Bool.or_eq_true, Bool.and_eq_true, beq_iff_eq, decide_eq_true_eq] at htail
    rcases htail with h1 | ⟨_, h2⟩
    · exact drop_singleton_getLast b 14 90 h1
    · rw [List.drop_drop] at h2
      exact drop_singleton_getLast b _ 90 h2
  · exact absurd h (by simp)

theorem parse_rejects (b : List Nat) (h : rejected b) : parseGentm b = none := by
  cases hp : parseGentm b with
  | none => rfl
  | some f =>
    exfalso
    obtain ⟨hlen, hdig, hm1, hm2, hlast⟩ := parse_accepts b f hp
    rcases h with h | h | ⟨i, hi, hf⟩ | ⟨h4, h5⟩ | ⟨h4, h5⟩ | h
    · rw [h] at hlen; simp at hlen
    · omega
    · rw [hdig i (by omega)] at hf
      exact Bool.noConfusion hf
    · rw [h4, h5] at hm1
      simp [digitsVal] at hm1
    · rw [h4, h5] at hm2
      simp [digitsVal] at hm2
    · exact h hlast

theorem fmtDigits_length_ge (fuel n : Nat) (acc : List Nat) :
    acc.length ≤ (fmtDigits fuel n acc).length := by
  induction fuel generalizing n acc with
  | zero => simp [fmtDigits]
  | succ f ih =>
    simp only [fmtDigits]
    split
    · simp
    · have := ih (n / 10) ((48 + n % 10) :: acc)
      simp only [List.length_cons] at this
      omega

theorem fmtDigits_length_succ (f n : Nat) (acc : List Nat) :
    acc.length + 1 ≤ (fmtDigits (f + 1) n acc).length := by
  simp only [fmtDigits]
  split
  · simp
  · have := fmtDigits_length_ge f (n / 10) ((48 + n % 10) :: acc)
    simpa using this

theorem fmtDigits_step (f n : Nat) (acc : List Nat) (h : 10 ≤ n) :
    fmtDigits (f + 1) n acc = fmtDigits f (n / 10) ((48 + n % 10) :: acc) := by
  have h3 : n / 10 ≠ 0 := by omega
  simp only [fmtDigits, h3, if_false]

theorem numDigits_cases (n : Nat) :
    (n < 10 ∧ (fmtDigits (n + 1) n []).length = 1)
      ∨ (10 ≤ n ∧ n < 100 ∧ (fmtDigits (n + 1) n []).length = 2)
      ∨ (100 ≤ n ∧ n < 1000 ∧ (fmtDigits (n + 1) n []).length = 3)
      ∨ (1000 ≤ n ∧ n < 10000 ∧ (fmtDigits (n + 1) n []).length = 4)
      ∨ (10000 ≤ n ∧ 5 ≤ (fmtDigits (n + 1) n []).length) := by
  by_cases c1 : n < 10
  · left
    exact ⟨c1, by rw [fmtDigits_one n n [] c1]; rfl⟩
  · by_cases c2 : n < 100
    · right; left
      obtain ⟨f, hf⟩ : ∃ f, n + 1 = f + 2 := ⟨n - 1, by omega⟩
      exact ⟨by omega, c2, by rw [hf, fmtDigits_two f n [] (by omega) c2]; rfl⟩
    · by_cases c3 : n < 1000
      · right; right; left
        obtain ⟨f, hf⟩ : ∃ f, n + 1 = f + 3 := ⟨n - 2, by omega⟩
        exact ⟨by omega, c3, by rw [hf, fmtDigits_three f n [] (by omega) c3]; rfl⟩
      · by_cases c4 : n < 10000
        · right; right; right; left
          obtain ⟨f, hf⟩ : ∃ f, n + 1 = f + 4 := ⟨n - 3, by omega⟩
          exact ⟨by omega, c4, by rw [hf, fmtDigits_four f n [] (by omega) c4]; rfl⟩
        · right; right; right; right
          refine ⟨by omega, ?_⟩
          obtain ⟨f, hf⟩ : ∃ f, n + 1 = f + 1 + 1 + 1 + 1 + 1 := ⟨n - 4, by omega⟩
          rw [hf, fmtDigits_step _ n _ (by omega), fmtDigits_step _ (n / 10) _ (by omega),
            fmtDigits_step _ (n / 10 / 10) _ (by omega),
            fmtDigits_step _ (n / 10 / 10 / 10) _ (by omega)]
          have := fmtDigits_length_succ f (n / 10 / 10 / 10 / 10)
            [48 + n / 10 / 10 / 10 % 10, 48 + n / 10 / 10 % 10, 48 + n / 10 % 10, 48 + n % 10]
          simpa using this

theorem fmtint_length (x : Int) (w : Nat) :
    (fmtint x w true).length
      = max w ((fmtDigits (x.natAbs + 1) x.natAbs []).length + (if x < 0 then 1 else 0)) := by
  unfold fmtint
  by_cases hx : x < 0
  · simp only [hx, if_true, List.length_append, List.length_replicate, List.length_cons,
      List.length_nil]
    omega
  · simp only [hx, if_false, if_true, List.length_append, List.length_replicate,
      List.length_nil]
    omega

theorem fmtint_width4 (x : Int) :
    4 ≤ (fmtint x 4 true).length
      ∧ ((fmtint x 4 true).length = 4 ↔ -999 ≤ x ∧ x ≤ 9999) := by
  rw [fmtint_length]
  have hn := Int.natAbs_eq x
  have hc := numDigits_cases x.natAbs
  generalize x.natAbs = n at hn hc
  generalize (fmtDigits (n + 1) n []).length = nd at hc
  by_cases hx : x < 0
  · simp only [hx, if_true]
    omega
  · simp only [hx, if_false]
    omega

theorem fmtint_width2 (x : Int) :
    2 ≤ (fmtint x 2 true).length
      ∧ ((fmtint x 2 true).length = 2 ↔ -9 ≤ x ∧ x ≤ 99) := by
  rw [fmtint_length]
  have hn := Int.natAbs_eq x
  have hc := numDigits_cases x.natAbs
  generalize x.natAbs = n at hn hc
  generalize (fmtDigits (n + 1) n []).length = nd at hc
  by_cases hx : x < 0
  · simp only [hx, if_true]
    omega
  · simp only [hx, if_false]
    omega

theorem gentmText_width (ts : TM) :
    15 ≤ (gentmText ts).length ∧ ((gentmText ts).length = 15 ↔ fitsWidth ts) := by
  have h1 := fmtint_width4 (ts.tm_year + 1900)
  have h2 := fmtint_width2 (ts.tm_mon + 1)
  have h3 := fmtint_width2 ts.tm_mday
  have h4 := fmtint_width2 ts.tm_hour
  have h5 := fmtint_width2 ts.tm_min
  have h6 := fmtint_width2 ts.tm_sec
  unfold fitsWidth
  simp only [gentmText, List.length_append, List.length_cons, List.length_nil]
  generalize (fmtint (ts.tm_year + 1900) 4 true).length = a1 at *
  generalize (fmtint (ts.tm_mon + 1) 2 true).length = a2 at *
  generalize (fmtint ts.tm_mday 2 true).length = a3 at *
  generalize (fmtint ts.tm_hour 2 true).length = a4 at *
  generalize (fmtint ts.tm_min 2 true).length = a5 at *
  generalize (fmtint ts.tm_sec 2 true).length = a6 at *
  constructor
  · omega
  · constructor
    · intro h
      have e1 : a1 = 4 := by omega
      have e2 : a2 = 2 := by omega
      have e3 : a3 = 2 := by omega
      have e4 : a4 = 2 := by omega
      have e5 : a5 = 2 := by omega
      have e6 : a6 = 2 := by omega
      have r1 := h1.2.1 e1
      have r2 := h2.2.1 e2
      have r3 := h3.2.1 e3
      have r4 := h4.2.1 e4
      have r5 := h5.2.1 e5
      have r6 := h6.2.1 e6
      exact ⟨r1.1, r1.2, r2.1, r2.2, r3.1, r3.2, r4.1, r4.2, r5.1, r5.2, r6.1, r6.2⟩
    · rintro ⟨q1, q2, q3, q4, q5, q6, q7, q8, q9, q10, q11, q12⟩
      have e1 := h1.2.2 ⟨q1, q2⟩
      have e2 := h2.2.2 ⟨q3, q4⟩
      have e3 := h3.2.2 ⟨q5, q6⟩
      have e4 := h4.2.2 ⟨q7, q8⟩
      have e5 := h5.2.2 ⟨q9, q10⟩
      have e6 := h6.2.2 ⟨q11, q12⟩
      omega

theorem gentmText_last (ts : TM) : (gentmText ts).getLast? = some 90 := by
  simp [gentmText]

theorem stored_width (v : ASN1_STRING) (p : List Nat) (ts : TM) :
    ((stored v p (gentmText ts)).length = 15 ↔ fitsWidth ts)
      ∧ (fitsWidth ts → (stored v p (gentmText ts)).bytes.getLast? = some 90) := by
  obtain ⟨hge, hiff⟩ := gentmText_width ts
  constructor
  · rw [← hiff]
    by_cases hlt : (gentmText ts).length < 20
    · have : (stored v p (gentmText ts)).length = ((gentmText ts).length : Int) :=
        snprintf_length p _ hlt
      rw [this]
      omega
    · have : (stored v p (gentmText ts)).length = -1 := by
        simp [stored, BIO_snprintf, hlt]
      rw [this]
      omega
  · intro hw
    have hl : (gentmText ts).length = 15 := hiff.2 hw
    have hs : BIO_snprintf p 20 (gentmText ts) = (gentmText ts ++ [0] ++ p.drop 16, 15) := by
      simp [BIO_snprintf, hl]
    have hb : (stored v p (gentmText ts)).bytes = gentmText ts := by
      simp only [ASN1_STRING.bytes, stored, hs, Option.getD_some]
      have : (15 : Int).toNat = (gentmText ts).length := by rw [hl]; rfl
      rw [this, List.append_assoc, List.take_left]
    rw [hb]
    exact gentmText_last ts

/-- C4, as amended: when the calendar conversion of `t` (with the offsets
applied) succeeds and a target and a block are available, the call returns a
value; that value has length exactly 15 and last byte `Z` when the year
`tm_year + 1900` is in -999..9999 and month, day, hour, minute and second are
each in -9..99, and its length is not 15 otherwise; with both offsets 0 that
call is `ASN1_GENERALIZEDTIME_set`. -/
theorem adj_length (c : Collab) (s : Option ASN1_STRING) (t od os : Int) (v : ASN1_STRING)
    (ts : TM) (p : List Nat) (hv : adjTarget c s = some v)
    (hts : adjustedFields c t od os = some ts) (hp : adjBlock c v = some p) :
    (fitsWidth ts →
        ∃ r, (ASN1_GENERALIZEDTIME_adj c s t od os).1 = some r ∧ r.length = 15
          ∧ r.bytes.getLast? = some 90)
      ∧ (¬ fitsWidth ts →
          ∃ r, (ASN1_GENERALIZEDTIME_adj c s t od os).1 = some r ∧ r.length ≠ 15)
      ∧ (od = 0 → os = 0 →
          ASN1_GENERALIZEDTIME_set c s t = ASN1_GENERALIZEDTIME_adj c s t od os) := by
  have hret : (ASN1_GENERALIZEDTIME_adj c s t od os).1 = some (stored v p (gentmText ts)) := by
    rw [adj_eq]; simp only [hv, hts, hp]
  obtain ⟨hiff, hlast⟩ := stored_width v p ts
  refine ⟨fun hw => ⟨_, hret, hiff.2 hw, hlast hw⟩, fun hw => ⟨_, hret, fun h => hw (hiff.1 h)⟩,
    ?_⟩
  intro h1 h2
  rw [h1, h2]
  rfl

/-- C4, as amended, at `t = -62198755200` (1 January of the year -1, 00:00:00
UTC): the value returned is the 15 bytes `-0010101000000Z`. -/
theorem adj_length_witness :
    (ASN1_GENERALIZEDTIME_adj stdCollab none (-62198755200) 0 0).1.map
        (fun r => (r.length, r.bytes.getLast?)) = some (15, some 90) := by
  obtain ⟨r, h1, h2, h3⟩ := (adj_length stdCollab none (-62198755200) 0 0
    { length := 0, type := V_ASN1_GENERALIZEDTIME, data := none, flags := 0 }
    { tm_sec := 0, tm_min := 0, tm_hour := 0, tm_mday := 1, tm_mon := 0, tm_year := -1901 }
    (List.replicate 20 0) (by decide) (by decide) (by decide)).1 (by decide)
  rw [h1, Option.map_some', h2, h3]

end A_gentm
